import Mathlib

/-!
Verification of hbase_exporter: the scrape / decode / dispatch pipeline.

A shallow embedding of the Go sources `utils/string.go`, `collector/jvm.go`,
`collector/master_server.go`, `collector/rs_server.go` and
`collector/rs_region.go`, followed by theorems about them.

Conventions of the embedding

* A Go `string` is a `List Char` (`GoString`).  Every separator the code
  searches for is ASCII, so searching by code point and searching by byte
  agree on well-formed UTF-8 text.
* The strings of the fixed-schema collectors are decoded by `encoding/json`
  and lower-cased by `strings.ToLower`; both only yield valid UTF-8, and such
  a string is held as its characters.  The strings of the per-region
  collector are bytes that `gjson` cuts out of the response body unchecked:
  there a `Char` of code below 256 stands for the byte of that code, so that
  `[Char.ofNat 0xFF]` is the one-byte string 0xFF, and `utf8.ValidString`
  says whether the bytes are valid UTF-8.
* A Go function that can stop with a run-time panic returns `Except Panic _`;
  `Except.error` is the panic, `Except.ok` the normal return.
* A function returning `(value, error)` returns `Except Panic (Except GoError value)`
  when it can also panic.
* A `float64` is kept symbolic (`Float64`): the collectors never compute with
  floats, they only convert and forward them.
-/

namespace HBaseExporter

/-- A Go string, as its sequence of characters. -/
abbrev GoString := List Char

/-- A Go run-time panic. -/
inductive Panic where
  /-- Message `index out of range [index] with length len`. -/
  | indexOutOfRange (index len : Nat)
  /-- The panic raised by `prometheus.MustNewConstMetric` on an inconsistent
  number of label values. -/
  | inconsistentCardinality (want got : Nat)
  /-- The panic raised by `prometheus.MustNewConstMetric` on a label value
  that is not valid UTF-8. -/
  | invalidLabelValue
  deriving DecidableEq, Repr

deriving instance DecidableEq for Except

/-- Slice indexing `xs[i]`: panics when `i` is not below `len(xs)`. -/
def index {α : Type} (xs : List α) (i : Nat) : Except Panic α :=
  match xs.get? i with
  | some x => .ok x
  | none => .error (.indexOutOfRange i xs.length)

/-! ## Package `strings` -/

namespace strings

/-- Go `strings.HasPrefix(s, prefix)`. -/
def HasPrefix (s pre : GoString) : Bool :=
  pre.isPrefixOf s

/-- Go `strings.Index(s, sep)`: the position of the first occurrence of `sep`
in `s`; `none` stands for the result `-1`. -/
def Index : GoString → GoString → Option Nat
  | [], sep => if HasPrefix [] sep then some 0 else none
  | c :: s, sep =>
    if HasPrefix (c :: s) sep then some 0 else (Index s sep).map (· + 1)

/-- Go `strings.Contains(s, substr)`, that is `Index(s, substr) >= 0`. -/
def Contains (s substr : GoString) : Bool :=
  (Index s substr).isSome

/-- Go `strings.HasSuffix(s, suffix)`. -/
def HasSuffix (s suf : GoString) : Bool :=
  suf.isSuffixOf s

/-- The loop of Go `strings.genSplit` with `sepSave = 0`: at most `k` further
cuts, each at the first occurrence of `sep` in what is left. -/
def genSplit (sep : GoString) : Nat → GoString → List GoString
  | 0, s => [s]
  | k + 1, s =>
    match Index s sep with
    | none => [s]
    | some m => s.take m :: genSplit sep k (s.drop (m + sep.length))

/-- Go `strings.explode(s, n)`: the first `n - 1` characters one by one, then
the rest. -/
def explode : Nat → GoString → List GoString
  | 0, _ => []
  | _, [] => []
  | 1, s => [s]
  | k + 2, c :: s => [c] :: explode (k + 1) s

/-- Go `strings.SplitN(s, sep, n)` for a count `n ≥ 0`. -/
def SplitN (s sep : GoString) (n : Nat) : List GoString :=
  if n = 0 then []
  else if sep = [] then explode (min n s.length) s
  else genSplit sep (min n (s.length + 1) - 1) s

/-- Go `strings.Join(elems, sep)`. -/
def Join (elems : List GoString) (sep : GoString) : GoString :=
  sep.intercalate elems

end strings

/-! ## Package `unicode/utf8` -/

namespace utf8

/-- The bytes that must follow the first byte `c` of an encoded character, each
as the range it must lie in; `none` when `c` cannot start a character.  This is
the table `first` with `acceptRanges` of Go's `unicode/utf8`. -/
def following (c : Char) : Option (List (Nat × Nat)) :=
  let b := c.toNat
  if b < 0x80 then some []
  else if 0xC2 ≤ b ∧ b ≤ 0xDF then some [(0x80, 0xBF)]
  else if b = 0xE0 then some [(0xA0, 0xBF), (0x80, 0xBF)]
  else if 0xE1 ≤ b ∧ b ≤ 0xEC then some [(0x80, 0xBF), (0x80, 0xBF)]
  else if b = 0xED then some [(0x80, 0x9F), (0x80, 0xBF)]
  else if 0xEE ≤ b ∧ b ≤ 0xEF then some [(0x80, 0xBF), (0x80, 0xBF)]
  else if b = 0xF0 then some [(0x90, 0xBF), (0x80, 0xBF), (0x80, 0xBF)]
  else if 0xF1 ≤ b ∧ b ≤ 0xF3 then some [(0x80, 0xBF), (0x80, 0xBF), (0x80, 0xBF)]
  else if b = 0xF4 then some [(0x80, 0x8F), (0x80, 0xBF), (0x80, 0xBF)]
  else none

/-- The scan of `utf8.ValidString` over the bytes of a string: `need` lists the
ranges of the bytes still owed to the character being read. -/
def validFrom : List (Nat × Nat) → GoString → Bool
  | [], [] => true
  | _ :: _, [] => false
  | (lo, hi) :: need, c :: rest =>
    decide (lo ≤ c.toNat) && decide (c.toNat ≤ hi) && validFrom need rest
  | [], c :: rest =>
    match following c with
    | none => false
    | some need => validFrom need rest

/-- Go `utf8.ValidString(s)`, on a string given by its bytes. -/
def ValidString (s : GoString) : Bool :=
  validFrom [] s

end utf8

/-! ## `utils/string.go` -/

namespace utils

/-- The local `flagList` of `SplitHBaseRegionStr`. -/
def flagList : List GoString :=
  ["Namespace_".toList, "_table_".toList, "_region_".toList, "_metric_".toList]

/-- `utils.SplitHBaseRegionStr`: four successive `SplitN(_, flag, 2)`, each
followed by unguarded indexing of the result. -/
def SplitHBaseRegionStr (data : GoString) : Except Panic (List GoString) := do
  let res : List GoString := []
  let temp1 := strings.SplitN data (← index flagList 0) 2
  let temp2 := strings.SplitN (← index temp1 1) (← index flagList 1) 2
  let res := res ++ [← index temp2 0]
  let temp3 := strings.SplitN (← index temp2 1) (← index flagList 2) 2
  let res := res ++ [← index temp3 0]
  let temp4 := strings.SplitN (← index temp3 1) (← index flagList 3) 2
  let res := res ++ [← index temp4 0]
  let res := res ++ [← index temp4 1]
  return res

end utils

/-! ## The Prometheus client library, as far as the collectors use it -/

/-- A Go `float64`, kept symbolic.  The collectors forward floats decoded from
JSON and convert integers; they perform no floating-point arithmetic. -/
inductive Float64 where
  /-- A float decoded from the JSON text, identified by its IEEE-754 bits. -/
  | ofBits (bits : Nat)
  /-- The conversion `float64(n)` of an integer. -/
  | ofInt (n : Int)
  deriving DecidableEq, Repr

namespace prometheus

/-- Go `prometheus.ValueType`. -/
inductive ValueType where
  | CounterValue
  | GaugeValue
  | UntypedValue
  deriving DecidableEq, Repr

/-- Go `prometheus.Desc`: fully-qualified name, help text and the ordered
names of the variable labels (the collectors pass no constant labels). -/
structure Desc where
  fqName : GoString
  help : GoString
  variableLabels : List GoString
  deriving DecidableEq, Repr

/-- Go `prometheus.BuildFQName`. -/
def BuildFQName (ns subsystem name : GoString) : GoString :=
  if name = [] then []
  else if ns ≠ [] ∧ subsystem ≠ [] then strings.Join [ns, subsystem, name] "_".toList
  else if ns ≠ [] then strings.Join [ns, name] "_".toList
  else if subsystem ≠ [] then strings.Join [subsystem, name] "_".toList
  else name

/-- Go `prometheus.NewDesc(fqName, help, variableLabels, nil)`. -/
def NewDesc (fqName help : GoString) (variableLabels : List GoString) : Desc :=
  { fqName := fqName, help := help, variableLabels := variableLabels }

/-- One sample as it is sent on the `chan<- prometheus.Metric`. -/
structure Metric where
  desc : Desc
  valType : ValueType
  value : Float64
  labelValues : List GoString
  deriving DecidableEq, Repr

/-- Go `prometheus.MustNewConstMetric` on label values held as characters, as
the fixed-schema collectors pass them: panics when the number of label values
differs from the number of variable labels of the descriptor.  The second check
of the library, that every label value is valid UTF-8, cannot fail on such
values. -/
def MustNewConstMetric (desc : Desc) (valueType : ValueType) (value : Float64)
    (labelValues : List GoString) : Except Panic Metric :=
  if labelValues.length ≠ desc.variableLabels.length then
    .error (.inconsistentCardinality desc.variableLabels.length labelValues.length)
  else
    .ok { desc := desc, valType := valueType, value := value, labelValues := labelValues }

/-- Go `prometheus.MustNewConstMetric` on label values held as bytes, as the
per-region collector passes them: panics when the number of label values
differs from the number of variable labels of the descriptor, and panics when
a label value is not valid UTF-8 (`validateLabelValues` of the library makes
the two checks in this order). -/
def MustNewConstMetricOfBytes (desc : Desc) (valueType : ValueType) (value : Float64)
    (labelValues : List GoString) : Except Panic Metric :=
  if labelValues.length ≠ desc.variableLabels.length then
    .error (.inconsistentCardinality desc.variableLabels.length labelValues.length)
  else if labelValues.all utf8.ValidString then
    .ok { desc := desc, valType := valueType, value := value, labelValues := labelValues }
  else
    .error .invalidLabelValue

/-- Go `prometheus.Gauge`. -/
structure Gauge where
  desc : Desc
  val : Float64
  deriving DecidableEq, Repr

/-- Go `prometheus.Counter`; `Inc` adds to an integer count. -/
structure Counter where
  desc : Desc
  count : Nat
  deriving DecidableEq, Repr

/-- Go `prometheus.NewGauge(GaugeOpts{Name, Help})`. -/
def NewGauge (Name Help : GoString) : Gauge :=
  { desc := NewDesc (BuildFQName [] [] Name) Help [], val := .ofInt 0 }

/-- Go `prometheus.NewCounter(CounterOpts{Name, Help})`. -/
def NewCounter (Name Help : GoString) : Counter :=
  { desc := NewDesc (BuildFQName [] [] Name) Help [], count := 0 }

/-- Go `Gauge.Set`. -/
def Gauge.Set (g : Gauge) (v : Float64) : Gauge :=
  { g with val := v }

/-- Go `Counter.Inc`. -/
def Counter.Inc (c : Counter) : Counter :=
  { c with count := c.count + 1 }

/-- The sample a gauge sent on the channel is read as. -/
def Gauge.toMetric (g : Gauge) : Metric :=
  { desc := g.desc, valType := .GaugeValue, value := g.val, labelValues := [] }

/-- The sample a counter sent on the channel is read as. -/
def Counter.toMetric (c : Counter) : Metric :=
  { desc := c.desc, valType := .CounterValue, value := .ofInt c.count, labelValues := [] }

end prometheus

/-! ## What one scrape receives from the network and the JSON libraries -/

/-- A Go `error` value returned by `fetchAndDecode*`. -/
inductive GoError where
  /-- The error of `http.Get`. -/
  | transport
  /-- The error `HTTP Request failed with code <code>`. -/
  | httpStatus (code : Nat)
  /-- The error of `ioutil.ReadAll`. -/
  | read
  /-- The error of `json.Unmarshal`. -/
  | unmarshal
  deriving DecidableEq, Repr

/-- The outcome of `http.Get(url)` followed by `ioutil.ReadAll(res.Body)`.
`β` is the decoded form of the body: the list `gjson.Get(body, "beans").Array()`. -/
inductive HttpGet (β : Type) where
  /-- The call `http.Get` returned an error. -/
  | transportError
  /-- A response with its status code; `body = none` when `ioutil.ReadAll`
  returned an error. -/
  | response (StatusCode : Nat) (body : Option β)

/-- Go `http.StatusOK`. -/
def StatusOK : Nat := 200

/-- An element of the `beans` array for a fixed-schema collector: the outcome of
`json.Unmarshal([]byte(bean.String()), &rec)`. -/
abbrev FixedBean (ρ : Type) := Except GoError ρ

namespace gjson

/-- A `gjson.Result`, through the two accessors the per-region collector
calls.  The string is the bytes of the response body, not validated. -/
structure Result where
  /-- The value of `.String()`. -/
  String : GoString
  /-- The value of `.Float()`. -/
  Float : Float64
  deriving DecidableEq, Repr

/-- The zero `Result`, which indexing a map with a missing key yields. -/
def Result.zero : Result :=
  { String := [], Float := .ofInt 0 }

/-- A `map[string]gjson.Result` as returned by `.Map()`, listed in the order
in which `range` visits it. -/
abbrev ResultMap := List (GoString × Result)

/-- Go map indexing `data[key]`. -/
def ResultMap.lookupKey (data : ResultMap) (key : GoString) : Result :=
  (data.lookup key).getD Result.zero

end gjson

/-- What one call of `Collect` leaves behind: the collector afterwards, the
samples sent on the channel in order, and the panic it ended with, if any. -/
structure Cycle (σ : Type) where
  state : σ
  sent : List prometheus.Metric
  panic : Option Panic

/-! ## Package `collector` -/

namespace collector

open prometheus

/-- The constant `namespace` of `jvm.go`. -/
def hbaseNamespace : GoString := "hbase".toList

section FixedSchema

-- Go `strings.ToLower` (Unicode lower-casing), a parameter of the model.
variable (ToLower : GoString → GoString)

/-! ### `jvm_response.go`, `jvm.go` -/

/-- Go `hbaseJvmResponse`. -/
structure hbaseJvmResponse where
  Host : GoString
  Role : GoString
  SubName : GoString
  MemNonHeapUsedM : Float64
  MemHeapUsedM : Float64
  MemHeapMaxM : Float64
  MemMaxM : Float64
  GcTimeMillis : Int
  GcCount : Int
  ThreadsBlocked : Int
  deriving DecidableEq, Repr

def defaultHBaseJvmLabels : List GoString := ["host".toList, "role".toList]

def defaultHBaseLabelJvmValues (hbaseJvm : hbaseJvmResponse) : List GoString :=
  [hbaseJvm.Host, ToLower hbaseJvm.Role]

/-- Go `hbaseJvmMetric`. -/
structure hbaseJvmMetric where
  Typ : ValueType
  Desc : Desc
  Value : hbaseJvmResponse → Float64
  Labels : hbaseJvmResponse → List GoString

/-- Go `HBaseJvm` (logger and url left out). -/
structure HBaseJvm where
  up : Gauge
  totalScrapes : Counter
  jsonParseFailures : Counter
  metrics : List hbaseJvmMetric

/-- Go `NewHBaseJvm`. -/
def NewHBaseJvm : HBaseJvm :=
  let subsystem : GoString := "jvm".toList
  { up := NewGauge (BuildFQName hbaseNamespace subsystem "up".toList)
      "Was the last scrape of the ElasticSearch cluster health endpoint successful.".toList
    totalScrapes := NewCounter (BuildFQName hbaseNamespace subsystem "total_scrapes".toList)
      "Current total ElasticSearch cluster health scrapes.".toList
    jsonParseFailures :=
      NewCounter (BuildFQName hbaseNamespace subsystem "json_parse_failures".toList)
        "Number of errors while parsing JSON.".toList
    metrics := [
      { Typ := .GaugeValue
        Desc := NewDesc (BuildFQName hbaseNamespace subsystem "mem_non_heap_used_m".toList)
          "The number of mem_non_heap_used_m.".toList defaultHBaseJvmLabels
        Value := fun hbaseJvm => hbaseJvm.MemNonHeapUsedM
        Labels := defaultHBaseLabelJvmValues ToLower },
      { Typ := .GaugeValue
        Desc := NewDesc (BuildFQName hbaseNamespace subsystem "mem_heap_used_m".toList)
          "The number of mem_heap_used_m.".toList defaultHBaseJvmLabels
        Value := fun hbaseJvm => hbaseJvm.MemHeapUsedM
        Labels := defaultHBaseLabelJvmValues ToLower },
      { Typ := .GaugeValue
        Desc := NewDesc (BuildFQName hbaseNamespace subsystem "mem_heap_mx_m".toList)
          "The number of mem_heap_mx_m.".toList defaultHBaseJvmLabels
        Value := fun hbaseJvm => hbaseJvm.MemHeapMaxM
        Labels := defaultHBaseLabelJvmValues ToLower },
      { Typ := .GaugeValue
        Desc := NewDesc (BuildFQName hbaseNamespace subsystem "mem_max_m".toList)
          "The number of mem_max_m.".toList defaultHBaseJvmLabels
        Value := fun hbaseJvm => hbaseJvm.MemMaxM
        Labels := defaultHBaseLabelJvmValues ToLower },
      { Typ := .GaugeValue
        Desc := NewDesc (BuildFQName hbaseNamespace subsystem "gc_time_millis".toList)
          "The number of gc_time_millis.".toList defaultHBaseJvmLabels
        Value := fun hbaseJvm => .ofInt hbaseJvm.GcTimeMillis
        Labels := defaultHBaseLabelJvmValues ToLower },
      { Typ := .GaugeValue
        Desc := NewDesc (BuildFQName hbaseNamespace subsystem "gc_count".toList)
          "The number of gc_count.".toList defaultHBaseJvmLabels
        Value := fun hbaseJvm => .ofInt hbaseJvm.GcCount
        Labels := defaultHBaseLabelJvmValues ToLower },
      { Typ := .GaugeValue
        Desc := NewDesc (BuildFQName hbaseNamespace subsystem "thread_blocked".toList)
          "The number of thread_blocked.".toList defaultHBaseJvmLabels
        Value := fun hbaseJvm => .ofInt hbaseJvm.ThreadsBlocked
        Labels := defaultHBaseLabelJvmValues ToLower } ] }

/-- Go `(*HBaseJvm).Describe`: the descriptors sent, in order. -/
def HBaseJvm.Describe (m : HBaseJvm) : List Desc :=
  m.metrics.map (·.Desc) ++ [m.up.desc, m.totalScrapes.desc, m.jsonParseFailures.desc]

/-- Go `(*HBaseJvm).fetchAndDecodeHBaseJvm`. -/
def HBaseJvm.fetchAndDecodeHBaseJvm (m : HBaseJvm)
    (get : HttpGet (List (FixedBean hbaseJvmResponse))) :
    HBaseJvm × Except Panic (Except GoError hbaseJvmResponse) :=
  match get with
  | .transportError => (m, .ok (.error .transport))
  | .response StatusCode body =>
    if StatusCode ≠ StatusOK then (m, .ok (.error (.httpStatus StatusCode)))
    else
      match body with
      | none => ({ m with jsonParseFailures := m.jsonParseFailures.Inc }, .ok (.error .read))
      | some data =>
        match index data 0 with
        | .error p => (m, .error p)
        | .ok (.error err) =>
          ({ m with jsonParseFailures := m.jsonParseFailures.Inc }, .ok (.error err))
        | .ok (.ok mjr) => (m, .ok (.ok mjr))

/-- The `for _, metric := range metrics` loop of a `Collect`: the samples sent
before the loop ends or panics. -/
def sendAll : List (Except Panic Metric) → List Metric × Option Panic
  | [] => ([], none)
  | .error p :: _ => ([], some p)
  | .ok x :: rest => ((x :: (sendAll rest).1), (sendAll rest).2)

/-- Go `(*HBaseJvm).Collect`.  The deferred function sends `up`,
`totalScrapes` and `jsonParseFailures` last, also when the body panics. -/
def HBaseJvm.Collect (m : HBaseJvm) (get : HttpGet (List (FixedBean hbaseJvmResponse))) :
    Cycle HBaseJvm :=
  let m := { m with totalScrapes := m.totalScrapes.Inc }
  let deferred (m : HBaseJvm) : List Metric :=
    [m.up.toMetric, m.totalScrapes.toMetric, m.jsonParseFailures.toMetric]
  match m.fetchAndDecodeHBaseJvm get with
  | (m, .error p) => { state := m, sent := deferred m, panic := some p }
  | (m, .ok (.error _)) =>
    let m := { m with up := m.up.Set (.ofInt 0) }
    { state := m, sent := deferred m, panic := none }
  | (m, .ok (.ok hbaseJvmResp)) =>
    let m := { m with up := m.up.Set (.ofInt 1) }
    let loop := sendAll (m.metrics.map fun metric =>
      MustNewConstMetric metric.Desc metric.Typ (metric.Value hbaseJvmResp)
        (metric.Labels hbaseJvmResp))
    { state := m, sent := loop.1 ++ deferred m, panic := loop.2 }

/-! ### `master_server_response.go`, `master_server.go` -/

/-- Go `masterServerResponse`. -/
structure masterServerResponse where
  Host : GoString
  Role : GoString
  NumRegionServers : Int
  NumDeadRegionServers : Int
  IsActiveMaster : GoString
  AverageLoad : Float64
  deriving DecidableEq, Repr

def defaultHBaseMasterServerLabels : List GoString := ["host".toList, "role".toList]

def defaultHBaseMasterServerLabelServerValues (masterServer : masterServerResponse) : List GoString :=
  [masterServer.Host, ToLower masterServer.Role]

/-- Go `masterServerMetric`. -/
structure masterServerMetric where
  Typ : ValueType
  Desc : Desc
  Value : masterServerResponse → Float64
  Labels : masterServerResponse → List GoString

/-- Go `MasterServer` (logger and url left out). -/
structure MasterServer where
  up : Gauge
  totalScrapes : Counter
  jsonParseFailures : Counter
  metrics : List masterServerMetric

/-- Go `NewMasterServer`. -/
def NewMasterServer : MasterServer :=
  let subsystem : GoString := "server".toList
  { up := NewGauge (BuildFQName hbaseNamespace subsystem "up".toList)
      "Was the last scrape of the ElasticSearch cluster health endpoint successful.".toList
    totalScrapes := NewCounter (BuildFQName hbaseNamespace subsystem "total_scrapes".toList)
      "Current total ElasticSearch cluster health scrapes.".toList
    jsonParseFailures :=
      NewCounter (BuildFQName hbaseNamespace subsystem "json_parse_failures".toList)
        "Number of errors while parsing JSON.".toList
    metrics := [
      { Typ := .GaugeValue
        Desc := NewDesc (BuildFQName hbaseNamespace subsystem "average_load".toList)
          "The number of average_load.".toList defaultHBaseMasterServerLabels
        Value := fun masterServer => masterServer.AverageLoad
        Labels := defaultHBaseMasterServerLabelServerValues ToLower },
      { Typ := .GaugeValue
        Desc := NewDesc (BuildFQName hbaseNamespace subsystem "num_regionservers".toList)
          "The number of num_regionservers.".toList defaultHBaseMasterServerLabels
        Value := fun masterServer => .ofInt masterServer.NumRegionServers
        Labels := defaultHBaseMasterServerLabelServerValues ToLower },
      { Typ := .GaugeValue
        Desc := NewDesc (BuildFQName hbaseNamespace subsystem "num_dead_regionserver".toList)
          "The number of num_dead_regionserver.".toList defaultHBaseMasterServerLabels
        Value := fun masterServer => .ofInt masterServer.NumDeadRegionServers
        Labels := defaultHBaseMasterServerLabelServerValues ToLower },
      { Typ := .GaugeValue
        Desc := NewDesc (BuildFQName hbaseNamespace subsystem "is_active_master".toList)
          "The number ofis_active_master.".toList defaultHBaseMasterServerLabels
        Value := fun masterServer =>
          if masterServer.IsActiveMaster = "true".toList then .ofInt 1 else .ofInt 0
        Labels := defaultHBaseMasterServerLabelServerValues ToLower } ] }

/-- Go `(*MasterServer).Describe`: the descriptors sent, in order. -/
def MasterServer.Describe (m : MasterServer) : List Desc :=
  m.metrics.map (·.Desc) ++ [m.up.desc, m.totalScrapes.desc, m.jsonParseFailures.desc]

/-- Go `(*MasterServer).fetchAndDecodeMasterServer`. -/
def MasterServer.fetchAndDecodeMasterServer (m : MasterServer)
    (get : HttpGet (List (FixedBean masterServerResponse))) :
    MasterServer × Except Panic (Except GoError masterServerResponse) :=
  match get with
  | .transportError => (m, .ok (.error .transport))
  | .response StatusCode body =>
    if StatusCode ≠ StatusOK then (m, .ok (.error (.httpStatus StatusCode)))
    else
      match body with
      | none => ({ m with jsonParseFailures := m.jsonParseFailures.Inc }, .ok (.error .read))
      | some data =>
        match index data 0 with
        | .error p => (m, .error p)
        | .ok (.error err) =>
          ({ m with jsonParseFailures := m.jsonParseFailures.Inc }, .ok (.error err))
        | .ok (.ok msr) => (m, .ok (.ok msr))

/-- Go `(*MasterServer).Collect`.  The deferred function sends `up`,
`totalScrapes` and `jsonParseFailures` last, also when the body panics. -/
def MasterServer.Collect (m : MasterServer) (get : HttpGet (List (FixedBean masterServerResponse))) :
    Cycle MasterServer :=
  let m := { m with totalScrapes := m.totalScrapes.Inc }
  let deferred (m : MasterServer) : List Metric :=
    [m.up.toMetric, m.totalScrapes.toMetric, m.jsonParseFailures.toMetric]
  match m.fetchAndDecodeMasterServer get with
  | (m, .error p) => { state := m, sent := deferred m, panic := some p }
  | (m, .ok (.error _)) =>
    let m := { m with up := m.up.Set (.ofInt 0) }
    { state := m, sent := deferred m, panic := none }
  | (m, .ok (.ok masterServerResp)) =>
    let m := { m with up := m.up.Set (.ofInt 1) }
    let loop := sendAll (m.metrics.map fun metric =>
      MustNewConstMetric metric.Desc metric.Typ (metric.Value masterServerResp)
        (metric.Labels masterServerResp))
    { state := m, sent := loop.1 ++ deferred m, panic := loop.2 }

/-! ### `rs_server_response.go`, `rs_server.go` -/

/-- Go `rsServerResponse`. -/
structure rsServerResponse where
  Host : GoString
  Role : GoString
  MemStoreSize : Int
  RegionCount : Int
  StoreCount : Int
  StoreFileCount : Int
  StoreFileSize : Int
  TotalRequestCount : Int
  SplitQueueLength : Int
  CompactionQueueLength : Int
  FlushQueueLength : Int
  BlockCountHitPercent : Float64
  SlowAppendCount : Int
  SlowDeleteCount : Int
  SlowGetCount : Int
  SlowPutCount : Int
  SlowIncrementCount : Int
  deriving DecidableEq, Repr

def defaultHBaseRsServerLabels : List GoString := ["host".toList, "role".toList]

def defaultHBaseRsServerLabelServerValues (rsServer : rsServerResponse) : List GoString :=
  [rsServer.Host, ToLower rsServer.Role]

/-- Go `rsServerMetric`. -/
structure rsServerMetric where
  Typ : ValueType
  Desc : Desc
  Value : rsServerResponse → Float64
  Labels : rsServerResponse → List GoString

/-- Go `RsServer` (logger and url left out). -/
structure RsServer where
  up : Gauge
  totalScrapes : Counter
  jsonParseFailures : Counter
  metrics : List rsServerMetric

/-- Go `NewRsServer`. -/
def NewRsServer : RsServer :=
  let subsystem : GoString := "server".toList
  { up := NewGauge (BuildFQName hbaseNamespace subsystem "up".toList)
      "Was the last scrape of the ElasticSearch cluster health endpoint successful.".toList
    totalScrapes := NewCounter (BuildFQName hbaseNamespace subsystem "total_scrapes".toList)
      "Current total ElasticSearch cluster health scrapes.".toList
    jsonParseFailures :=
      NewCounter (BuildFQName hbaseNamespace subsystem "json_parse_failures".toList)
        "Number of errors while parsing JSON.".toList
    metrics := [
      { Typ := .GaugeValue
        Desc := NewDesc (BuildFQName hbaseNamespace subsystem "mem_store_size".toList)
          "The number of mem_store_size.".toList defaultHBaseRsServerLabels
        Value := fun rsServer => .ofInt rsServer.MemStoreSize
        Labels := defaultHBaseRsServerLabelServerValues ToLower },
      { Typ := .GaugeValue
        Desc := NewDesc (BuildFQName hbaseNamespace subsystem "region_count".toList)
          "The number of region_count.".toList defaultHBaseRsServerLabels
        Value := fun rsServer => .ofInt rsServer.RegionCount
        Labels := defaultHBaseRsServerLabelServerValues ToLower },
      { Typ := .GaugeValue
        Desc := NewDesc (BuildFQName hbaseNamespace subsystem "store_count".toList)
          "The number of store_count.".toList defaultHBaseRsServerLabels
        Value := fun rsServer => .ofInt rsServer.StoreCount
        Labels := defaultHBaseRsServerLabelServerValues ToLower },
      { Typ := .GaugeValue
        Desc := NewDesc (BuildFQName hbaseNamespace subsystem "store_file_count".toList)
          "The number of store_file_count.".toList defaultHBaseRsServerLabels
        Value := fun rsServer => .ofInt rsServer.StoreFileCount
        Labels := defaultHBaseRsServerLabelServerValues ToLower },
      { Typ := .GaugeValue
        Desc := NewDesc (BuildFQName hbaseNamespace subsystem "store_file_size".toList)
          "The number of store_file_size.".toList defaultHBaseRsServerLabels
        Value := fun rsServer => .ofInt rsServer.StoreFileSize
        Labels := defaultHBaseRsServerLabelServerValues ToLower },
      { Typ := .GaugeValue
        Desc := NewDesc (BuildFQName hbaseNamespace subsystem "total_request_count".toList)
          "The number of total_request_count.".toList defaultHBaseRsServerLabels
        Value := fun rsServer => .ofInt rsServer.TotalRequestCount
        Labels := defaultHBaseRsServerLabelServerValues ToLower },
      { Typ := .GaugeValue
        Desc := NewDesc (BuildFQName hbaseNamespace subsystem "split_queue_length".toList)
          "The number of split_queue_length.".toList defaultHBaseRsServerLabels
        Value := fun rsServer => .ofInt rsServer.SplitQueueLength
        Labels := defaultHBaseRsServerLabelServerValues ToLower },
      { Typ := .GaugeValue
        Desc := NewDesc (BuildFQName hbaseNamespace subsystem "compaction_queue_length".toList)
          "The number of compaction_queue_length.".toList defaultHBaseRsServerLabels
        Value := fun rsServer => .ofInt rsServer.CompactionQueueLength
        Labels := defaultHBaseRsServerLabelServerValues ToLower },
      { Typ := .GaugeValue
        Desc := NewDesc (BuildFQName hbaseNamespace subsystem "flush_queue_length".toList)
          "The number of flush_queue_length.".toList defaultHBaseRsServerLabels
        Value := fun rsServer => .ofInt rsServer.FlushQueueLength
        Labels := defaultHBaseRsServerLabelServerValues ToLower },
      { Typ := .GaugeValue
        Desc := NewDesc (BuildFQName hbaseNamespace subsystem "block_count_hit_percent".toList)
          "The number of block_count_hit_percent.".toList defaultHBaseRsServerLabels
        Value := fun rsServer => rsServer.BlockCountHitPercent
        Labels := defaultHBaseRsServerLabelServerValues ToLower },
      { Typ := .GaugeValue
        Desc := NewDesc (BuildFQName hbaseNamespace subsystem "slow_append_count".toList)
          "The number of slow_append_count.".toList defaultHBaseRsServerLabels
        Value := fun rsServer => .ofInt rsServer.SlowAppendCount
        Labels := defaultHBaseRsServerLabelServerValues ToLower },
      { Typ := .GaugeValue
        Desc := NewDesc (BuildFQName hbaseNamespace subsystem "slow_delete_count".toList)
          "The number of slow_delete_count.".toList defaultHBaseRsServerLabels
        Value := fun rsServer => .ofInt rsServer.SlowDeleteCount
        Labels := defaultHBaseRsServerLabelServerValues ToLower },
      { Typ := .GaugeValue
        Desc := NewDesc (BuildFQName hbaseNamespace subsystem "slow_get_count".toList)
          "The number of slow_get_count.".toList defaultHBaseRsServerLabels
        Value := fun rsServer => .ofInt rsServer.SlowGetCount
        Labels := defaultHBaseRsServerLabelServerValues ToLower },
      { Typ := .GaugeValue
        Desc := NewDesc (BuildFQName hbaseNamespace subsystem "slow_put_count".toList)
          "The number of slow_put_count.".toList defaultHBaseRsServerLabels
        Value := fun rsServer => .ofInt rsServer.SlowPutCount
        Labels := defaultHBaseRsServerLabelServerValues ToLower },
      { Typ := .GaugeValue
        Desc := NewDesc (BuildFQName hbaseNamespace subsystem "slow_increment_count".toList)
          "The number of slow_increment_count.".toList defaultHBaseRsServerLabels
        Value := fun rsServer => .ofInt rsServer.SlowIncrementCount
        Labels := defaultHBaseRsServerLabelServerValues ToLower } ] }

/-- Go `(*RsServer).Describe`: the descriptors sent, in order. -/
def RsServer.Describe (m : RsServer) : List Desc :=
  m.metrics.map (·.Desc) ++ [m.up.desc, m.totalScrapes.desc, m.jsonParseFailures.desc]

/-- Go `(*RsServer).fetchAndDecodeRsServer`. -/
def RsServer.fetchAndDecodeRsServer (m : RsServer)
    (get : HttpGet (List (FixedBean rsServerResponse))) :
    RsServer × Except Panic (Except GoError rsServerResponse) :=
  match get with
  | .transportError => (m, .ok (.error .transport))
  | .response StatusCode body =>
    if StatusCode ≠ StatusOK then (m, .ok (.error (.httpStatus StatusCode)))
    else
      match body with
      | none => ({ m with jsonParseFailures := m.jsonParseFailures.Inc }, .ok (.error .read))
      | some data =>
        match index data 0 with
        | .error p => (m, .error p)
        | .ok (.error err) =>
          ({ m with jsonParseFailures := m.jsonParseFailures.Inc }, .ok (.error err))
        | .ok (.ok rsr) => (m, .ok (.ok rsr))

/-- Go `(*RsServer).Collect`.  The deferred function sends `up`,
`totalScrapes` and `jsonParseFailures` last, also when the body panics. -/
def RsServer.Collect (m : RsServer) (get : HttpGet (List (FixedBean rsServerResponse))) :
    Cycle RsServer :=
  let m := { m with totalScrapes := m.totalScrapes.Inc }
  let deferred (m : RsServer) : List Metric :=
    [m.up.toMetric, m.totalScrapes.toMetric, m.jsonParseFailures.toMetric]
  match m.fetchAndDecodeRsServer get with
  | (m, .error p) => { state := m, sent := deferred m, panic := some p }
  | (m, .ok (.error _)) =>
    let m := { m with up := m.up.Set (.ofInt 0) }
    { state := m, sent := deferred m, panic := none }
  | (m, .ok (.ok rsServerResp)) =>
    let m := { m with up := m.up.Set (.ofInt 1) }
    let loop := sendAll (m.metrics.map fun metric =>
      MustNewConstMetric metric.Desc metric.Typ (metric.Value rsServerResp)
        (metric.Labels rsServerResp))
    { state := m, sent := loop.1 ++ deferred m, panic := loop.2 }

end FixedSchema

/-! ### `rs_region.go` -/

def defaultHBaseRsRegionLabels : List GoString :=
  ["host".toList, "role".toList, "namespace".toList, "htable".toList, "hregion".toList]

/-- Go `hbaseRegionJmxMetric`. -/
structure hbaseRegionJmxMetric where
  Namespace : GoString
  Table : GoString
  Region : GoString
  Metric : GoString
  Value : Float64
  deriving DecidableEq, Repr

/-- Go `RsRegion` (logger, url and mutex left out).  The map `metrics` is
listed in the order in which `range` visits it. -/
structure RsRegion where
  metrics : List (GoString × Desc)
  jmxs : List hbaseRegionJmxMetric
  deriving DecidableEq, Repr

/-- Go `newMetric` of `rs_region.go`. -/
def newMetric (metric doc : GoString) : Desc :=
  let subsystem : GoString := "region".toList
  NewDesc (BuildFQName hbaseNamespace subsystem metric) doc defaultHBaseRsRegionLabels

/-- Go `NewRsRegion`. -/
def NewRsRegion : RsRegion :=
  { metrics := [
      ("read_request_count".toList,
        newMetric "read_request_count".toList "The description of read_request_count".toList),
      ("write_request_count".toList,
        newMetric "write_request_count".toList "The description of write_request_count".toList),
      ("store_count".toList,
        newMetric "store_count".toList "The description of store_count".toList),
      ("store_file_count".toList,
        newMetric "store_file_count".toList "The description of store_file_count".toList),
      ("mem_store_size".toList,
        newMetric "mem_store_size".toList "The description of mem_store_size".toList),
      ("store_file_size".toList,
        newMetric "store_file_size".toList "The description of store_file_size".toList),
      ("compactions_completed_count".toList,
        newMetric "compactions_completed_count".toList
          "The description of compactions_completed_count".toList),
      ("num_bytes_compacted_count".toList,
        newMetric "num_bytes_compacted_count".toList
          "The description of numBytes_compacted_count".toList),
      ("num_files_compacted_count".toList,
        newMetric "num_files_compacted_count".toList
          "The description of num_files_compacted_count".toList) ]
    jmxs := [] }

/-- Go `(*RsRegion).Describe`: the descriptors sent, in order. -/
def RsRegion.Describe (m : RsRegion) : List Desc :=
  m.metrics.map (·.2)

/-- The body of the `for k, v := range data` loop of `fetchAndDecodeRsRegion`:
the entry appended to `r.jmxs` for one attribute, if any. -/
def decodeAttribute (k : GoString) (v : gjson.Result) :
    Except Panic (Option hbaseRegionJmxMetric) :=
  if strings.HasPrefix k "Namespace".toList then do
    let keys ← utils.SplitHBaseRegionStr k
    let values := v.Float
    return some {
      Namespace := ← index keys 0
      Table := ← index keys 1
      Region := ← index keys 2
      Metric := ← index keys 3
      Value := values }
  else
    return none

/-- The `for k, v := range data` loop of `fetchAndDecodeRsRegion`, from the
buffer `jmxs`: the buffer afterwards and the panic that stopped the loop, if
any. -/
def decodeLoop : gjson.ResultMap → List hbaseRegionJmxMetric →
    List hbaseRegionJmxMetric × Option Panic
  | [], jmxs => (jmxs, none)
  | (k, v) :: rest, jmxs =>
    match decodeAttribute k v with
    | .error p => (jmxs, some p)
    | .ok none => decodeLoop rest jmxs
    | .ok (some jmx) => decodeLoop rest (jmxs ++ [jmx])

/-- Go `(*RsRegion).fetchAndDecodeRsRegion`; the value returned is the pair
`(host, role)`. -/
def RsRegion.fetchAndDecodeRsRegion (r : RsRegion) (get : HttpGet (List gjson.ResultMap)) :
    RsRegion × Except Panic (Except GoError (GoString × GoString)) :=
  let r := { r with jmxs := r.jmxs.take 0 }
  match get with
  | .transportError => (r, .ok (.error .transport))
  | .response StatusCode body =>
    if StatusCode ≠ StatusOK then (r, .ok (.error (.httpStatus StatusCode)))
    else
      match body with
      | none => (r, .ok (.error .read))
      | some beans =>
        match index beans 0 with
        | .error p => (r, .error p)
        | .ok data =>
          let host := (data.lookupKey "tag.Hostname".toList).String
          let role := (data.lookupKey "tag.Context".toList).String
          match decodeLoop data r.jmxs with
          | (jmxs, some p) => ({ r with jmxs := jmxs }, .error p)
          | (jmxs, none) => ({ r with jmxs := jmxs }, .ok (.ok (host, role)))

/-- The body of the `for _, jmx := range r.jmxs` loop of `(*RsRegion).Collect`:
the sample sent for one buffered entry, if any. -/
def dispatch (host role : GoString) (jmx : hbaseRegionJmxMetric) :
    Except Panic (Option Metric) :=
  let Typ := ValueType.GaugeValue
  let Value := jmx.Value
  let Labels := [host, role, jmx.Namespace, jmx.Table, jmx.Region]
  if jmx.Metric = "storeCount".toList then
    (MustNewConstMetricOfBytes
      (NewDesc (BuildFQName hbaseNamespace [] "store_count".toList)
        "The number of store_count.".toList defaultHBaseRsRegionLabels)
      Typ Value Labels).map some
  else if jmx.Metric = "storeFileCount".toList then
    (MustNewConstMetricOfBytes
      (NewDesc (BuildFQName hbaseNamespace [] "store_file_count".toList)
        "The number of store_file_count.".toList defaultHBaseRsRegionLabels)
      Typ Value Labels).map some
  else if jmx.Metric = "memStoreSize".toList then
    (MustNewConstMetricOfBytes
      (NewDesc (BuildFQName hbaseNamespace [] "mem_store_size".toList)
        "The number of mem_store_size.".toList defaultHBaseRsRegionLabels)
      Typ Value Labels).map some
  else if jmx.Metric = "storeFileSize".toList then
    (MustNewConstMetricOfBytes
      (NewDesc (BuildFQName hbaseNamespace [] "store_file_size".toList)
        "The number of store_file_size.".toList defaultHBaseRsRegionLabels)
      Typ Value Labels).map some
  else if jmx.Metric = "compactionsCompletedCount".toList then
    (MustNewConstMetricOfBytes
      (NewDesc (BuildFQName hbaseNamespace [] "compactions_completed_count".toList)
        "The number of compactions_completed_count.".toList defaultHBaseRsRegionLabels)
      Typ Value Labels).map some
  else if jmx.Metric = "readRequestCount".toList then
    (MustNewConstMetricOfBytes
      (NewDesc (BuildFQName hbaseNamespace [] "read_request_count".toList)
        "The number of read_request_count.".toList defaultHBaseRsRegionLabels)
      Typ Value Labels).map some
  else if jmx.Metric = "writeRequestCount".toList then
    (MustNewConstMetricOfBytes
      (NewDesc (BuildFQName hbaseNamespace [] "write_request_count".toList)
        "The number of write_request_count.".toList defaultHBaseRsRegionLabels)
      Typ Value Labels).map some
  else if jmx.Metric = "numFilesCompactedCount".toList then
    (MustNewConstMetricOfBytes
      (NewDesc (BuildFQName hbaseNamespace [] "num_files_compacted_count".toList)
        "The number of num_files_compacted_count.".toList defaultHBaseRsRegionLabels)
      Typ Value Labels).map some
  else if jmx.Metric = "numBytesCompactedCount".toList then
    (MustNewConstMetricOfBytes
      (NewDesc (BuildFQName hbaseNamespace [] "num_bytes_compacted_count".toList)
        "The number of num_bytes_compacted_count.".toList defaultHBaseRsRegionLabels)
      Typ Value Labels).map some
  else .ok none

/-- The `for _, jmx := range r.jmxs` loop of `(*RsRegion).Collect`: the samples
sent and the panic that stopped the loop, if any. -/
def dispatchLoop (host role : GoString) :
    List hbaseRegionJmxMetric → List Metric × Option Panic
  | [] => ([], none)
  | jmx :: rest =>
    match dispatch host role jmx with
    | .error p => ([], some p)
    | .ok none => dispatchLoop host role rest
    | .ok (some x) => (x :: (dispatchLoop host role rest).1, (dispatchLoop host role rest).2)

/-- Go `(*RsRegion).Collect` (the mutex is held for the whole call). -/
def RsRegion.Collect (r : RsRegion) (get : HttpGet (List gjson.ResultMap)) :
    Cycle RsRegion :=
  match r.fetchAndDecodeRsRegion get with
  | (r, .error p) => { state := r, sent := [], panic := some p }
  | (r, .ok (.error _)) => { state := r, sent := [], panic := none }
  | (r, .ok (.ok (host, role))) =>
    let loop := dispatchLoop host role r.jmxs
    { state := r, sent := loop.1, panic := loop.2 }


end collector

/-- A sequence of cycles of one collector: `step` is its `Collect`, the list
holds what each cycle receives from the network, and the result is the
collector after the last cycle. -/
def runCycles {σ β : Type} (step : σ → β → Cycle σ) : σ → List β → σ
  | m, [] => m
  | m, get :: rest => runCycles step (step m get).state rest

/-- The canonical composite key
`Namespace_<ns>_table_<table>_region_<region>_metric_<metric>`. -/
def compositeKey (ns table region metric : GoString) : GoString :=
  "Namespace_".toList ++ ns ++ "_table_".toList ++ table ++ "_region_".toList ++ region
    ++ "_metric_".toList ++ metric

/-- The string `x` contains none of the four separators of `flagList`. -/
def NoSeparator (x : GoString) : Prop :=
  ∀ f ∈ utils.flagList, strings.Contains x f = false

instance (x : GoString) : Decidable (NoSeparator x) := by
  unfold NoSeparator; infer_instance

/-- The enumeration of recognised metric identifiers of the per-region
collector. -/
def recognisedMetrics : List GoString :=
  ["storeCount".toList, "storeFileCount".toList, "memStoreSize".toList,
   "storeFileSize".toList, "compactionsCompletedCount".toList, "readRequestCount".toList,
   "writeRequestCount".toList, "numFilesCompactedCount".toList,
   "numBytesCompactedCount".toList]

/-! ## Lemmas on `strings.Index` and `strings.SplitN` -/

section StringLemmas

open strings

theorem HasPrefix_iff (s p : GoString) : HasPrefix s p = true ↔ p <+: s := by
  simp [HasPrefix]

theorem HasPrefix_false_iff (s p : GoString) : HasPrefix s p = false ↔ ¬ p <+: s := by
  rw [← HasPrefix_iff, Bool.not_eq_true]

theorem HasSuffix_false_iff (s p : GoString) : HasSuffix s p = false ↔ ¬ p <:+ s := by
  rw [← List.isSuffixOf_iff_suffix, Bool.not_eq_true]; rfl

theorem Index_of_HasPrefix {s sep : GoString} (h : HasPrefix s sep = true) :
    Index s sep = some 0 := by
  cases s <;> simp [Index, h]

theorem Index_cons_of_not_HasPrefix {c : Char} {s sep : GoString}
    (h : HasPrefix (c :: s) sep = false) :
    Index (c :: s) sep = (Index s sep).map (· + 1) := by
  simp [Index, h]

/-- What `Index` returns is the position of an occurrence. -/
theorem Index_some_split {sep : GoString} :
    ∀ {s : GoString} {m : Nat}, Index s sep = some m →
      s = s.take m ++ sep ++ s.drop (m + sep.length)
  | [], m, h => by
    by_cases hp : HasPrefix [] sep = true
    · have hs : sep = [] := by simpa [HasPrefix] using hp
      simp [hs]
    · simp [Index, hp] at h
  | c :: s, m, h => by
    by_cases hp : HasPrefix (c :: s) sep = true
    · rw [Index_of_HasPrefix hp] at h
      obtain ⟨r, hr⟩ := (HasPrefix_iff _ _).1 hp
      have hm : m = 0 := by simpa using h.symm
      subst hm
      rw [← hr]; simp
    · have hp2 : HasPrefix (c :: s) sep = false := by simpa using hp
      rw [Index_cons_of_not_HasPrefix hp2] at h
      obtain ⟨k, hk, rfl⟩ := Option.map_eq_some'.1 h
      have ih := Index_some_split hk
      have e : k + 1 + sep.length = (k + sep.length) + 1 := by omega
      rw [e, List.take_succ_cons, List.drop_succ_cons]
      simpa using ih

/-- An occurrence of `sep` after `a` makes `Index` succeed, at a position not
after `a`. -/
theorem Index_of_occurrence (sep : GoString) :
    ∀ (a b : GoString), ∃ m, Index (a ++ sep ++ b) sep = some m ∧ m ≤ a.length
  | [], b => ⟨0, Index_of_HasPrefix (by simp [HasPrefix]), le_refl _⟩
  | c :: a, b => by
    by_cases hp : HasPrefix (c :: a ++ sep ++ b) sep = true
    · exact ⟨0, Index_of_HasPrefix hp, Nat.zero_le _⟩
    · have hp2 : HasPrefix (c :: (a ++ sep ++ b)) sep = false := by simpa using hp
      obtain ⟨m, hm, hle⟩ := Index_of_occurrence sep a b
      refine ⟨m + 1, ?_, by simpa using hle⟩
      have : c :: a ++ sep ++ b = c :: (a ++ sep ++ b) := by simp
      rw [this, Index_cons_of_not_HasPrefix hp2, hm]; rfl

theorem SplitN_two (s sep : GoString) (hsep : sep ≠ []) :
    SplitN s sep 2 =
      match Index s sep with
      | none => [s]
      | some m => [s.take m, s.drop (m + sep.length)] := by
  cases s with
  | nil =>
    have : HasPrefix [] sep = false := by
      cases sep with
      | nil => exact absurd rfl hsep
      | cons => simp [HasPrefix]
    simp [SplitN, hsep, genSplit, Index, this]
  | cons c s =>
    have : min 2 ((c :: s).length + 1) - 1 = 1 := by simp
    simp only [SplitN, hsep, this, genSplit]
    cases Index (c :: s) sep <;> simp

/-- After an occurrence of `sep` following `a`, the cut made by `Index` leaves a
remainder that still ends with everything that followed that occurrence. -/
theorem Index_of_occurrence_drop (sep a b : GoString) :
    ∃ m x, Index (a ++ sep ++ b) sep = some m ∧
      (a ++ sep ++ b).drop (m + sep.length) = x ++ b := by
  obtain ⟨m, hm, hle⟩ := Index_of_occurrence sep a b
  refine ⟨m, (a ++ sep).drop (m + sep.length), hm, ?_⟩
  rw [List.drop_append_of_le_length]
  simp; omega

/-- The four cuts of `SplitHBaseRegionStr`, spelled out on `strings.Index`. -/
theorem SplitHBaseRegionStr_eq (data : GoString) :
    utils.SplitHBaseRegionStr data =
      match Index data "Namespace_".toList with
      | none => .error (.indexOutOfRange 1 1)
      | some m0 =>
        match Index (data.drop (m0 + 10)) "_table_".toList with
        | none => .error (.indexOutOfRange 1 1)
        | some m1 =>
          match Index ((data.drop (m0 + 10)).drop (m1 + 7)) "_region_".toList with
          | none => .error (.indexOutOfRange 1 1)
          | some m2 =>
            match Index (((data.drop (m0 + 10)).drop (m1 + 7)).drop (m2 + 8))
                "_metric_".toList with
            | none => .error (.indexOutOfRange 1 1)
            | some m3 =>
              .ok [(data.drop (m0 + 10)).take m1,
                   ((data.drop (m0 + 10)).drop (m1 + 7)).take m2,
                   (((data.drop (m0 + 10)).drop (m1 + 7)).drop (m2 + 8)).take m3,
                   (((data.drop (m0 + 10)).drop (m1 + 7)).drop (m2 + 8)).drop (m3 + 8)] := by
  have e0 : ("Namespace_".toList : GoString) ≠ [] := by decide
  have e1 : ("_table_".toList : GoString) ≠ [] := by decide
  have e2 : ("_region_".toList : GoString) ≠ [] := by decide
  have e3 : ("_metric_".toList : GoString) ≠ [] := by decide
  have l0 : ("Namespace_".toList : GoString).length = 10 := by decide
  have l1 : ("_table_".toList : GoString).length = 7 := by decide
  have l2 : ("_region_".toList : GoString).length = 8 := by decide
  have l3 : ("_metric_".toList : GoString).length = 8 := by decide
  unfold utils.SplitHBaseRegionStr
  simp only [utils.flagList, index, List.get?, bind, Except.bind, pure, Except.pure]
  rw [SplitN_two _ _ e0]
  cases h0 : Index data "Namespace_".toList with
  | none => simp [List.get?]
  | some m0 =>
    simp only [List.get?, l0]
    rw [SplitN_two _ _ e1]
    cases h1 : Index (data.drop (m0 + 10)) "_table_".toList with
    | none => simp [List.get?]
    | some m1 =>
      simp only [List.get?, l1]
      rw [SplitN_two _ _ e2]
      cases h2 : Index ((data.drop (m0 + 10)).drop (m1 + 7)) "_region_".toList with
      | none => simp [List.get?]
      | some m2 =>
        simp only [List.get?, l2]
        rw [SplitN_two _ _ e3]
        cases h3 : Index (((data.drop (m0 + 10)).drop (m1 + 7)).drop (m2 + 8))
            "_metric_".toList with
        | none => simp [List.get?]
        | some m3 => simp [List.get?, l3]

/-- If `sep` overlaps itself only through its last character, an occurrence of
`sep` cannot start at the head of `a ++ sep ++ b` unless `a` already contains
`sep` at its head or `a` is `sep` without its last character. -/
theorem not_prefix_straddle {sep a b : GoString}
    (hb : ∀ k, 0 < k → k + 1 < sep.length → ¬ (sep.drop k <+: sep))
    (ha : a ≠ []) (h1 : ¬ sep <+: a) (h2 : ¬ sep.dropLast <:+ a) :
    ¬ sep <+: a ++ sep ++ b := by
  intro h
  have ha2 : a <+: a ++ sep ++ b := by
    rw [List.append_assoc]; exact List.prefix_append _ _
  by_cases hl : sep.length ≤ a.length
  · exact h1 (List.prefix_of_prefix_length_le h ha2 hl)
  · obtain ⟨u, hu⟩ := List.prefix_of_prefix_length_le ha2 h (by omega)
    have hlen : sep.length = a.length + u.length := by rw [← hu]; simp
    have hu2 : u <+: sep ++ b := by
      have h3 : a ++ u <+: a ++ (sep ++ b) := by
        rw [hu, ← List.append_assoc]; exact h
      exact (List.prefix_append_right_inj a).1 h3
    have hu3 : u <+: sep :=
      List.prefix_of_prefix_length_le hu2 (List.prefix_append sep b) (by omega)
    have hud : sep.drop a.length = u := by rw [← hu]; simp
    by_cases hk : a.length + 1 < sep.length
    · exact hb a.length (List.length_pos.2 ha) hk (hud ▸ hu3)
    · have hdl : sep.dropLast = a := by
        rw [List.dropLast_eq_take, ← hu]
        have : (a ++ u).length - 1 = a.length := by simp; omega
        rw [this]; simp
      exact h2 (hdl ▸ List.suffix_refl _)

theorem Contains_cons_false {c : Char} {s sep : GoString}
    (h : Contains (c :: s) sep = false) :
    HasPrefix (c :: s) sep = false ∧ Contains s sep = false := by
  by_cases hp : HasPrefix (c :: s) sep = true
  · simp [Contains, Index_of_HasPrefix hp] at h
  · have hp2 : HasPrefix (c :: s) sep = false := by simpa using hp
    refine ⟨hp2, ?_⟩
    simpa [Contains, Index_cons_of_not_HasPrefix hp2] using h

/-- When `a` neither contains `sep` nor ends with `sep` less its last character,
the first occurrence of `sep` in `a ++ sep ++ b` is the one written after `a`. -/
theorem Index_first_occurrence {sep : GoString}
    (hb : ∀ k, 0 < k → k + 1 < sep.length → ¬ (sep.drop k <+: sep)) (b : GoString) :
    ∀ (a : GoString), Contains a sep = false → HasSuffix a sep.dropLast = false →
      Index (a ++ sep ++ b) sep = some a.length
  | [], _, _ => Index_of_HasPrefix (by simp [HasPrefix])
  | c :: a, hc, hs => by
    obtain ⟨hp, hc2⟩ := Contains_cons_false hc
    have hs1 : ¬ sep.dropLast <:+ c :: a := (HasSuffix_false_iff _ _).1 hs
    have hs2 : HasSuffix a sep.dropLast = false :=
      (HasSuffix_false_iff _ _).2 (fun h => hs1 (h.trans (List.suffix_cons c a)))
    have hp1 : ¬ sep <+: c :: a := (HasPrefix_false_iff _ _).1 hp
    have hn := not_prefix_straddle (b := b) hb (List.cons_ne_nil c a) hp1 hs1
    have e : c :: a ++ sep ++ b = c :: (a ++ sep ++ b) := by simp
    have hn2 : HasPrefix (c :: (a ++ sep ++ b)) sep = false := by
      rw [← e]; exact (HasPrefix_false_iff _ _).2 hn
    rw [e, Index_cons_of_not_HasPrefix hn2, Index_first_occurrence hb b a hc2 hs2]
    rfl

theorem border_table :
    ∀ k, 0 < k → k + 1 < ("_table_".toList : GoString).length →
      ¬ (("_table_".toList : GoString).drop k <+: "_table_".toList) := by
  intro k h0 h1
  have : k < 6 := by simp at h1; omega
  interval_cases k <;> decide

theorem border_region :
    ∀ k, 0 < k → k + 1 < ("_region_".toList : GoString).length →
      ¬ (("_region_".toList : GoString).drop k <+: "_region_".toList) := by
  intro k h0 h1
  have : k < 7 := by simp at h1; omega
  interval_cases k <;> decide

theorem border_metric :
    ∀ k, 0 < k → k + 1 < ("_metric_".toList : GoString).length →
      ¬ (("_metric_".toList : GoString).drop k <+: "_metric_".toList) := by
  intro k h0 h1
  have : k < 7 := by simp at h1; omega
  interval_cases k <;> decide

/-- Every canonical key is decomposed, and rejoining the four parts gives the
key back; no condition on the dimension values is needed for this. -/
theorem compositeKey_roundtrip (ns table region metric : GoString) :
    ∃ a b c d, utils.SplitHBaseRegionStr (compositeKey ns table region metric)
        = .ok [a, b, c, d] ∧
      compositeKey a b c d = compositeKey ns table region metric := by
  have h0 : Index (compositeKey ns table region metric) "Namespace_".toList = some 0 :=
    Index_of_HasPrefix (by simp [HasPrefix, compositeKey, List.append_assoc])
  have hd : (compositeKey ns table region metric).drop (0 + 10)
      = ns ++ "_table_".toList ++ (table ++ "_region_".toList ++ (region
          ++ "_metric_".toList ++ metric)) := by
    simp [compositeKey, List.append_assoc]
  obtain ⟨m1, x1, h1, d1⟩ := Index_of_occurrence_drop "_table_".toList ns
    (table ++ "_region_".toList ++ (region ++ "_metric_".toList ++ metric))
  have l1 : ("_table_".toList : GoString).length = 7 := by decide
  have l2 : ("_region_".toList : GoString).length = 8 := by decide
  have l3 : ("_metric_".toList : GoString).length = 8 := by decide
  rw [l1] at d1
  have s1 := Index_some_split h1
  rw [l1, d1] at s1
  obtain ⟨m2, x2, h2, d2⟩ := Index_of_occurrence_drop "_region_".toList
    (x1 ++ table) (region ++ "_metric_".toList ++ metric)
  rw [l2] at d2
  have s2 := Index_some_split h2
  rw [l2, d2] at s2
  obtain ⟨m3, x3, h3, d3⟩ := Index_of_occurrence_drop "_metric_".toList
    (x2 ++ region) metric
  rw [l3] at d3
  have s3 := Index_some_split h3
  rw [l3] at s3
  have a1 : x1 ++ (table ++ "_region_".toList ++ (region ++ "_metric_".toList ++ metric))
      = x1 ++ table ++ "_region_".toList ++ (region ++ "_metric_".toList ++ metric) := by
    simp [List.append_assoc]
  have a2 : x2 ++ (region ++ "_metric_".toList ++ metric)
      = x2 ++ region ++ "_metric_".toList ++ metric := by
    simp [List.append_assoc]
  refine ⟨List.take m1 (ns ++ "_table_".toList ++ (table ++ "_region_".toList ++ (region
      ++ "_metric_".toList ++ metric))),
    List.take m2 (x1 ++ table ++ "_region_".toList ++ (region ++ "_metric_".toList ++ metric)),
    List.take m3 (x2 ++ region ++ "_metric_".toList ++ metric),
    List.drop (m3 + 8) (x2 ++ region ++ "_metric_".toList ++ metric), ?_, ?_⟩
  · rw [SplitHBaseRegionStr_eq, h0]
    simp only [hd, h1, d1, a1, h2, d2, a2, h3]
  · have e : compositeKey ns table region metric = "Namespace_".toList ++
        (ns ++ "_table_".toList ++ (table ++ "_region_".toList ++ (region
          ++ "_metric_".toList ++ metric))) := by
      simp [compositeKey, List.append_assoc]
    rw [e]
    conv_rhs => rw [s1, a1, s2, a2, s3]
    simp [compositeKey, List.append_assoc]

theorem take_drop_of_cut (a sep b : GoString) :
    (a ++ sep ++ b).take a.length = a ∧
      (a ++ sep ++ b).drop (a.length + sep.length) = b := by
  constructor
  · rw [List.append_assoc, List.take_left']; rfl
  · have : a.length + sep.length = (a ++ sep).length := by simp
    rw [this, List.drop_left']; rfl

/-- The decomposition of a canonical key whose dimension values keep every
separator unambiguous. -/
theorem SplitHBaseRegionStr_compositeKey (ns table region metric : GoString)
    (c1 : Contains ns "_table_".toList = false)
    (c2 : Contains table "_region_".toList = false)
    (c3 : Contains region "_metric_".toList = false)
    (e1 : HasSuffix ns "_table".toList = false)
    (e2 : HasSuffix table "_region".toList = false)
    (e3 : HasSuffix region "_metric".toList = false) :
    utils.SplitHBaseRegionStr (compositeKey ns table region metric)
      = .ok [ns, table, region, metric] := by
  have h0 : Index (compositeKey ns table region metric) "Namespace_".toList = some 0 :=
    Index_of_HasPrefix (by simp [HasPrefix, compositeKey, List.append_assoc])
  have hd : (compositeKey ns table region metric).drop (0 + 10)
      = ns ++ "_table_".toList ++ (table ++ "_region_".toList ++ (region
          ++ "_metric_".toList ++ metric)) := by
    simp [compositeKey, List.append_assoc]
  have l1 : ("_table_".toList : GoString).length = 7 := by decide
  have l2 : ("_region_".toList : GoString).length = 8 := by decide
  have l3 : ("_metric_".toList : GoString).length = 8 := by decide
  have i1 := Index_first_occurrence border_table
    (table ++ "_region_".toList ++ (region ++ "_metric_".toList ++ metric)) ns c1 e1
  have i2 := Index_first_occurrence border_region
    (region ++ "_metric_".toList ++ metric) table c2 e2
  have i3 := Index_first_occurrence border_metric metric region c3 e3
  have t1 := take_drop_of_cut ns "_table_".toList
    (table ++ "_region_".toList ++ (region ++ "_metric_".toList ++ metric))
  have t2 := take_drop_of_cut table "_region_".toList
    (region ++ "_metric_".toList ++ metric)
  have t3 := take_drop_of_cut region "_metric_".toList metric
  rw [l1] at t1
  rw [l2] at t2
  rw [l3] at t3
  rw [SplitHBaseRegionStr_eq, h0]
  simp only [hd, i1, t1.1, t1.2, i2, t2.1, t2.2, i3, t3.1, t3.2]

theorem Contains_nil_false {sep : GoString} (hsep : sep ≠ []) :
    Contains [] sep = false := by
  cases sep with
  | nil => exact absurd rfl hsep
  | cons c t => simp [Contains, Index, HasPrefix]

/-- Nothing before the position returned by `Index` contains `sep`: the
position is that of the first occurrence. -/
theorem Contains_take_Index_false {sep : GoString} (hsep : sep ≠ []) :
    ∀ {s : GoString} {m : Nat}, Index s sep = some m → Contains (s.take m) sep = false
  | [], m, _ => by simpa using Contains_nil_false hsep
  | c :: s, m, h => by
    by_cases hp : HasPrefix (c :: s) sep = true
    · rw [Index_of_HasPrefix hp] at h
      have hm : m = 0 := by simpa using h.symm
      subst hm
      simpa using Contains_nil_false hsep
    · have hp2 : HasPrefix (c :: s) sep = false := by simpa using hp
      rw [Index_cons_of_not_HasPrefix hp2] at h
      obtain ⟨k, hk, rfl⟩ := Option.map_eq_some'.1 h
      have ih := Contains_take_Index_false hsep hk
      have hp3 : HasPrefix (c :: s.take k) sep = false := by
        rw [HasPrefix_false_iff]
        intro hpre
        have h1 : c :: s.take k <+: c :: s := by
          rw [← List.take_succ_cons]; exact List.take_prefix _ _
        exact (HasPrefix_false_iff _ _).1 hp2 (hpre.trans h1)
      rw [List.take_succ_cons]
      unfold Contains at ih ⊢
      rw [Index_cons_of_not_HasPrefix hp3]
      cases hI : Index (s.take k) sep with
      | none => rfl
      | some j => rw [hI] at ih; simp at ih

/-- What a successful decomposition says about the key: the positions of the
four cuts. -/
theorem SplitHBaseRegionStr_ok_inv {data a b c d : GoString}
    (h : utils.SplitHBaseRegionStr data = .ok [a, b, c, d]) :
    ∃ m0 m1 m2 m3,
      Index data "Namespace_".toList = some m0 ∧
      Index (data.drop (m0 + 10)) "_table_".toList = some m1 ∧
      Index ((data.drop (m0 + 10)).drop (m1 + 7)) "_region_".toList = some m2 ∧
      Index (((data.drop (m0 + 10)).drop (m1 + 7)).drop (m2 + 8)) "_metric_".toList
        = some m3 ∧
      a = (data.drop (m0 + 10)).take m1 ∧
      b = ((data.drop (m0 + 10)).drop (m1 + 7)).take m2 ∧
      c = (((data.drop (m0 + 10)).drop (m1 + 7)).drop (m2 + 8)).take m3 ∧
      d = (((data.drop (m0 + 10)).drop (m1 + 7)).drop (m2 + 8)).drop (m3 + 8) := by
  rw [SplitHBaseRegionStr_eq] at h
  cases h0 : Index data "Namespace_".toList with
  | none => rw [h0] at h; simp at h
  | some m0 =>
    rw [h0] at h
    simp only at h
    cases h1 : Index (data.drop (m0 + 10)) "_table_".toList with
    | none => rw [h1] at h; simp at h
    | some m1 =>
      rw [h1] at h
      simp only at h
      cases h2 : Index ((data.drop (m0 + 10)).drop (m1 + 7)) "_region_".toList with
      | none => rw [h2] at h; simp at h
      | some m2 =>
        rw [h2] at h
        simp only at h
        cases h3 : Index (((data.drop (m0 + 10)).drop (m1 + 7)).drop (m2 + 8))
            "_metric_".toList with
        | none => rw [h3] at h; simp at h
        | some m3 =>
          rw [h3] at h
          simp only [Except.ok.injEq, List.cons.injEq, and_true] at h
          obtain ⟨ha, hb, hc, hd⟩ := h
          exact ⟨m0, m1, m2, m3, rfl, h1, h2, h3, ha.symm, hb.symm, hc.symm, hd.symm⟩

end StringLemmas

/-! ## Lemmas on the per-region collector -/

section RegionLemmas

open collector prometheus

theorem MustNewConstMetricOfBytes_region (fqName help : GoString) (t : ValueType)
    (v : Float64) (a b c d e : GoString)
    (hv : [a, b, c, d, e].all utf8.ValidString = true) :
    MustNewConstMetricOfBytes (NewDesc fqName help defaultHBaseRsRegionLabels) t v
        [a, b, c, d, e]
      = .ok { desc := NewDesc fqName help defaultHBaseRsRegionLabels, valType := t,
              value := v, labelValues := [a, b, c, d, e] } := by
  unfold MustNewConstMetricOfBytes
  rw [if_neg (by simp [NewDesc, defaultHBaseRsRegionLabels]), if_pos hv]

theorem MustNewConstMetricOfBytes_invalid (fqName help : GoString) (t : ValueType)
    (v : Float64) (a b c d e : GoString)
    (hv : [a, b, c, d, e].all utf8.ValidString = false) :
    MustNewConstMetricOfBytes (NewDesc fqName help defaultHBaseRsRegionLabels) t v
        [a, b, c, d, e]
      = .error .invalidLabelValue := by
  unfold MustNewConstMetricOfBytes
  rw [if_neg (by simp [NewDesc, defaultHBaseRsRegionLabels]), if_neg (by simp [hv])]

/-- A recognised entry whose five label values are valid UTF-8 yields one
sample, with the value and the labels of the entry. -/
theorem dispatch_of_recognised (host role : GoString) (jmx : hbaseRegionJmxMetric)
    (h : jmx.Metric ∈ recognisedMetrics)
    (hv : [host, role, jmx.Namespace, jmx.Table, jmx.Region].all utf8.ValidString = true) :
    ∃ x, dispatch host role jmx = .ok (some x) ∧ x.value = jmx.Value ∧
      x.labelValues = [host, role, jmx.Namespace, jmx.Table, jmx.Region] ∧
      x.valType = .GaugeValue ∧ x.desc.variableLabels = defaultHBaseRsRegionLabels := by
  unfold dispatch
  simp only [MustNewConstMetricOfBytes_region _ _ _ _ _ _ _ _ _ hv, Except.map]
  split_ifs with h1 h2 h3 h4 h5 h6 h7 h8 h9
  · exact ⟨_, rfl, rfl, rfl, rfl, rfl⟩
  · exact ⟨_, rfl, rfl, rfl, rfl, rfl⟩
  · exact ⟨_, rfl, rfl, rfl, rfl, rfl⟩
  · exact ⟨_, rfl, rfl, rfl, rfl, rfl⟩
  · exact ⟨_, rfl, rfl, rfl, rfl, rfl⟩
  · exact ⟨_, rfl, rfl, rfl, rfl, rfl⟩
  · exact ⟨_, rfl, rfl, rfl, rfl, rfl⟩
  · exact ⟨_, rfl, rfl, rfl, rfl, rfl⟩
  · exact ⟨_, rfl, rfl, rfl, rfl, rfl⟩
  · exfalso
    simp only [recognisedMetrics, List.mem_cons, List.mem_singleton,
      List.not_mem_nil, or_false] at h
    tauto

/-- A recognised entry one of whose five label values is not valid UTF-8 makes
the loop body panic. -/
theorem dispatch_of_recognised_invalid (host role : GoString) (jmx : hbaseRegionJmxMetric)
    (h : jmx.Metric ∈ recognisedMetrics)
    (hv : [host, role, jmx.Namespace, jmx.Table, jmx.Region].all utf8.ValidString = false) :
    dispatch host role jmx = .error .invalidLabelValue := by
  unfold dispatch
  simp only [MustNewConstMetricOfBytes_invalid _ _ _ _ _ _ _ _ _ hv, Except.map]
  split_ifs with h1 h2 h3 h4 h5 h6 h7 h8 h9
  · rfl
  · rfl
  · rfl
  · rfl
  · rfl
  · rfl
  · rfl
  · rfl
  · rfl
  · exfalso
    simp only [recognisedMetrics, List.mem_cons, List.mem_singleton,
      List.not_mem_nil, or_false] at h
    tauto

theorem dispatch_of_not_recognised (host role : GoString) (jmx : hbaseRegionJmxMetric)
    (h : jmx.Metric ∉ recognisedMetrics) :
    dispatch host role jmx = .ok none := by
  simp only [recognisedMetrics, List.mem_cons, List.mem_singleton, List.not_mem_nil,
    or_false, not_or] at h
  obtain ⟨h1, h2, h3, h4, h5, h6, h7, h8, h9⟩ := h
  unfold dispatch
  simp only [h1, h2, h3, h4, h5, h6, h7, h8, h9, if_false]

/-- On a buffer in which the label values of every recognised entry are valid
UTF-8, the dispatch loop does not panic, and what it sends is, entry by entry,
the value and labels of the recognised entries of the buffer. -/
theorem dispatchLoop_spec (host role : GoString) :
    ∀ jmxs : List hbaseRegionJmxMetric,
      (∀ e ∈ jmxs, e.Metric ∈ recognisedMetrics →
        [host, role, e.Namespace, e.Table, e.Region].all utf8.ValidString = true) →
      (dispatchLoop host role jmxs).2 = none ∧
      (dispatchLoop host role jmxs).1.map (fun x => (x.value, x.labelValues)) =
        (jmxs.filter (fun e => decide (e.Metric ∈ recognisedMetrics))).map
          (fun e => (e.Value, [host, role, e.Namespace, e.Table, e.Region])) ∧
      ∀ x ∈ (dispatchLoop host role jmxs).1,
        x.valType = .GaugeValue ∧ x.desc.variableLabels = defaultHBaseRsRegionLabels
  | [], _ => by simp [dispatchLoop]
  | jmx :: rest, hall => by
    obtain ⟨ih1, ih2, ih3⟩ := dispatchLoop_spec host role rest
      (fun e he => hall e (List.mem_cons_of_mem jmx he))
    by_cases h : jmx.Metric ∈ recognisedMetrics
    · obtain ⟨x, hx, hv, hl, ht, hd⟩ := dispatch_of_recognised host role jmx h
        (hall jmx (List.mem_cons_self jmx rest) h)
      simp only [dispatchLoop, hx, List.filter_cons, h, decide_True, if_true, List.map_cons,
        ih1, ih2, hv, hl, List.mem_cons, true_and]
      rintro y (rfl | hy)
      · exact ⟨ht, hd⟩
      · exact ih3 y hy
    · have hx := dispatch_of_not_recognised host role jmx h
      simp only [dispatchLoop, hx, List.filter_cons, h, decide_False, ih1, ih2, true_and]
      simpa using ih3

theorem decodeAttribute_of_not_guard (k : GoString) (v : gjson.Result)
    (h : strings.HasPrefix k "Namespace".toList = false) :
    decodeAttribute k v = .ok none := by
  simp only [decodeAttribute, h, Bool.false_eq_true, if_false]
  rfl

theorem decodeAttribute_of_guard (k : GoString) (v : gjson.Result)
    (h : strings.HasPrefix k "Namespace".toList = true) :
    decodeAttribute k v ≠ .ok none := by
  intro hr
  simp only [decodeAttribute, h, if_true, bind, Except.bind, pure, Except.pure] at hr
  repeat' split at hr
  all_goals simp at hr

/-- The decoding loop, when it does not panic, appends to the buffer exactly
one entry per attribute that passes the guard, in the order of the visit. -/
theorem decodeLoop_spec :
    ∀ (data : gjson.ResultMap) (jmxs : List hbaseRegionJmxMetric),
      (decodeLoop data jmxs).2 = none →
      ∃ es, (decodeLoop data jmxs).1 = jmxs ++ es ∧
        List.Forall₂ (fun kv e => decodeAttribute kv.1 kv.2 = .ok (some e))
          (data.filter (fun kv => strings.HasPrefix kv.1 "Namespace".toList)) es
  | [], jmxs, _ => ⟨[], by simp [decodeLoop], by simp⟩
  | (k, v) :: rest, jmxs, h => by
    cases hd : decodeAttribute k v with
    | error p => simp [decodeLoop, hd] at h
    | ok o =>
      cases o with
      | none =>
        have hg : strings.HasPrefix k "Namespace".toList = false := by
          by_contra hg
          exact decodeAttribute_of_guard k v (by simpa using hg) hd
        simp only [decodeLoop, hd] at h ⊢
        obtain ⟨es, h1, h2⟩ := decodeLoop_spec rest jmxs h
        refine ⟨es, h1, ?_⟩
        simp only [List.filter_cons, hg, Bool.false_eq_true, if_false]
        exact h2
      | some e =>
        have hg : strings.HasPrefix k "Namespace".toList = true := by
          by_contra hg
          have := decodeAttribute_of_not_guard k v (by simpa using hg)
          rw [hd] at this
          simp at this
        simp only [decodeLoop, hd] at h ⊢
        obtain ⟨es, h1, h2⟩ := decodeLoop_spec rest (jmxs ++ [e]) h
        refine ⟨e :: es, by rw [h1]; simp, ?_⟩
        simp only [List.filter_cons, hg, if_true]
        exact List.Forall₂.cons hd h2

theorem fetchAndDecodeRsRegion_of_decoded (r : RsRegion) (data : gjson.ResultMap)
    (rest : List gjson.ResultMap) (hd : (decodeLoop data []).2 = none) :
    r.fetchAndDecodeRsRegion (.response StatusOK (some (data :: rest)))
      = ({ r with jmxs := (decodeLoop data []).1 },
          .ok (.ok ((data.lookupKey "tag.Hostname".toList).String,
                    (data.lookupKey "tag.Context".toList).String))) := by
  simp only [RsRegion.fetchAndDecodeRsRegion, index, List.get?, List.take_zero,
    ne_eq, not_true_eq_false, if_false]
  generalize decodeLoop data [] = res at hd
  obtain ⟨jmxs, p⟩ := res
  simp only at hd
  subst hd
  rfl

/-- The shapes of the input on which `fetchAndDecodeRsRegion` returns without
a panic: a decoded snapshot, or an error with the buffer left empty. -/
theorem fetchAndDecodeRsRegion_cases (r : RsRegion) (get : HttpGet (List gjson.ResultMap)) :
    (∀ host role, (r.fetchAndDecodeRsRegion get).2 = .ok (.ok (host, role)) →
      ∃ data rest, get = .response StatusOK (some (data :: rest)) ∧
        (decodeLoop data []).2 = none) ∧
    (∀ err, (r.fetchAndDecodeRsRegion get).2 = .ok (.error err) →
      (r.fetchAndDecodeRsRegion get).1.jmxs = []) := by
  rcases get with _ | ⟨code, body⟩
  · refine ⟨fun host role h => ?_, fun err _ => ?_⟩
    · simp [RsRegion.fetchAndDecodeRsRegion] at h
    · simp [RsRegion.fetchAndDecodeRsRegion]
  · by_cases hc : code = StatusOK
    · subst hc
      rcases body with _ | beans
      · refine ⟨fun host role h => ?_, fun err _ => ?_⟩
        · simp [RsRegion.fetchAndDecodeRsRegion] at h
        · simp [RsRegion.fetchAndDecodeRsRegion]
      · rcases beans with _ | ⟨data, rest⟩
        · refine ⟨fun host role h => ?_, fun err h => ?_⟩
          · simp [RsRegion.fetchAndDecodeRsRegion, index] at h
          · simp [RsRegion.fetchAndDecodeRsRegion, index] at h
        · cases hd : (decodeLoop data []).2 with
          | none =>
            rw [fetchAndDecodeRsRegion_of_decoded r data rest hd]
            refine ⟨fun _ _ _ => ⟨data, rest, rfl, hd⟩, ?_⟩
            intro err h
            simp at h
          | some p =>
            have hf : (r.fetchAndDecodeRsRegion
                (.response StatusOK (some (data :: rest)))).2 = .error p := by
              simp only [RsRegion.fetchAndDecodeRsRegion, index, List.get?, List.take_zero,
                ne_eq, not_true_eq_false, if_false]
              generalize decodeLoop data [] = res at hd
              obtain ⟨jmxs, q⟩ := res
              simp only at hd
              subst hd
              rfl
            refine ⟨fun host role h => ?_, fun err h => ?_⟩
            · rw [hf] at h; simp at h
            · rw [hf] at h; simp at h
    · refine ⟨fun host role h => ?_, fun err _ => ?_⟩
      · simp [RsRegion.fetchAndDecodeRsRegion, hc] at h
      · simp [RsRegion.fetchAndDecodeRsRegion, hc]

end RegionLemmas

/-! ## Lemmas on the fixed-schema collectors -/

section FixedLemmas

open collector prometheus

variable (ToLower : GoString → GoString)

theorem sendAll_map_ok {α : Type} (l : List α) (f : α → Except Panic Metric)
    (g : α → Metric) (h : ∀ a ∈ l, f a = .ok (g a)) :
    sendAll (l.map f) = (l.map g, none) := by
  induction l with
  | nil => rfl
  | cons a l ih =>
    have ha := h a (List.mem_cons_self a l)
    have ih2 := ih (fun b hb => h b (List.mem_cons_of_mem a hb))
    simp only [List.map_cons, ha, sendAll, ih2]

theorem HBaseJvm_Collect_of_error (m : HBaseJvm) (get : HttpGet (List (FixedBean hbaseJvmResponse)))
    (err : GoError) (h : (m.fetchAndDecodeHBaseJvm get).2 = .ok (.error err)) :
    (m.Collect get).panic = none ∧
    (m.Collect get).sent =
      [ { desc := m.up.desc, valType := .GaugeValue, value := .ofInt 0, labelValues := [] },
        { desc := m.totalScrapes.desc, valType := .CounterValue,
          value := .ofInt ((m.totalScrapes.count + 1 : Nat) : Int), labelValues := [] },
        { desc := m.jsonParseFailures.desc, valType := .CounterValue,
          value := .ofInt ((m.Collect get).state.jsonParseFailures.count : Int),
          labelValues := [] } ] ∧
    (m.Collect get).state.up.val = .ofInt 0 := by
  rcases get with _ | ⟨code, body⟩
  · simp [HBaseJvm.Collect, HBaseJvm.fetchAndDecodeHBaseJvm, Gauge.toMetric, Counter.toMetric, Gauge.Set,
      Counter.Inc]
  · by_cases hc : code = StatusOK
    · subst hc
      rcases body with _ | beans
      · simp [HBaseJvm.Collect, HBaseJvm.fetchAndDecodeHBaseJvm, Gauge.toMetric, Counter.toMetric, Gauge.Set,
          Counter.Inc]
      · rcases beans with _ | ⟨bean, rest⟩
        · simp [HBaseJvm.fetchAndDecodeHBaseJvm, index] at h
        · rcases bean with e | rec
          · simp [HBaseJvm.Collect, HBaseJvm.fetchAndDecodeHBaseJvm, index, Gauge.toMetric, Counter.toMetric,
              Gauge.Set, Counter.Inc]
          · simp [HBaseJvm.fetchAndDecodeHBaseJvm, index] at h
    · simp [HBaseJvm.Collect, HBaseJvm.fetchAndDecodeHBaseJvm, hc, Gauge.toMetric, Counter.toMetric, Gauge.Set,
        Counter.Inc]

theorem HBaseJvm_fetch_of_ok (m : HBaseJvm) (get : HttpGet (List (FixedBean hbaseJvmResponse)))
    (rec : hbaseJvmResponse) (h : (m.fetchAndDecodeHBaseJvm get).2 = .ok (.ok rec)) :
    ∃ rest, get = .response StatusOK (some (.ok rec :: rest)) := by
  rcases get with _ | ⟨code, body⟩
  · simp [HBaseJvm.fetchAndDecodeHBaseJvm] at h
  · by_cases hc : code = StatusOK
    · subst hc
      rcases body with _ | beans
      · simp [HBaseJvm.fetchAndDecodeHBaseJvm] at h
      · rcases beans with _ | ⟨bean, rest⟩
        · simp [HBaseJvm.fetchAndDecodeHBaseJvm, index] at h
        · rcases bean with e | rec2
          · simp [HBaseJvm.fetchAndDecodeHBaseJvm, index] at h
          · simp [HBaseJvm.fetchAndDecodeHBaseJvm, index] at h
            subst h
            exact ⟨rest, rfl⟩
    · simp [HBaseJvm.fetchAndDecodeHBaseJvm, hc] at h

theorem HBaseJvm_Collect_of_ok (m : HBaseJvm) (get : HttpGet (List (FixedBean hbaseJvmResponse)))
    (rec : hbaseJvmResponse) (hm : m.metrics = (NewHBaseJvm ToLower).metrics)
    (h : (m.fetchAndDecodeHBaseJvm get).2 = .ok (.ok rec)) :
    (m.Collect get).panic = none ∧
    (m.Collect get).sent =
      m.metrics.map (fun metric =>
        { desc := metric.Desc, valType := metric.Typ, value := metric.Value rec,
          labelValues := metric.Labels rec }) ++
      [ { desc := m.up.desc, valType := .GaugeValue, value := .ofInt 1, labelValues := [] },
        { desc := m.totalScrapes.desc, valType := .CounterValue,
          value := .ofInt ((m.totalScrapes.count + 1 : Nat) : Int), labelValues := [] },
        { desc := m.jsonParseFailures.desc, valType := .CounterValue,
          value := .ofInt (m.jsonParseFailures.count : Int), labelValues := [] } ] ∧
    m.metrics.length = 7 ∧ (m.Collect get).sent.length = 7 + 3 := by
  obtain ⟨rest, rfl⟩ := HBaseJvm_fetch_of_ok m get rec h
  have hl : m.metrics.length = 7 := by rw [hm]; rfl
  have hs : (m.Collect (.response StatusOK (some (.ok rec :: rest)))).panic = none ∧
      (m.Collect (.response StatusOK (some (.ok rec :: rest)))).sent =
      m.metrics.map (fun metric =>
        { desc := metric.Desc, valType := metric.Typ, value := metric.Value rec,
          labelValues := metric.Labels rec }) ++
      [ { desc := m.up.desc, valType := .GaugeValue, value := .ofInt 1, labelValues := [] },
        { desc := m.totalScrapes.desc, valType := .CounterValue,
          value := .ofInt ((m.totalScrapes.count + 1 : Nat) : Int), labelValues := [] },
        { desc := m.jsonParseFailures.desc, valType := .CounterValue,
          value := .ofInt (m.jsonParseFailures.count : Int), labelValues := [] } ] := by
    simp only [HBaseJvm.Collect, HBaseJvm.fetchAndDecodeHBaseJvm, index, List.get?, ne_eq, not_true_eq_false,
      if_false, hm]
    rw [sendAll_map_ok _ _ (fun metric =>
        { desc := metric.Desc, valType := metric.Typ, value := metric.Value rec,
          labelValues := metric.Labels rec })]
    · exact ⟨rfl, rfl⟩
    · intro a ha
      simp only [NewHBaseJvm, List.mem_cons, List.mem_singleton, List.not_mem_nil, or_false] at ha
      rcases ha with rfl | rfl | rfl | rfl | rfl | rfl | rfl <;> rfl
  refine ⟨hs.1, hs.2, hl, ?_⟩
  rw [hs.2]; simp [hl]

theorem MasterServer_Collect_of_error (m : MasterServer) (get : HttpGet (List (FixedBean masterServerResponse)))
    (err : GoError) (h : (m.fetchAndDecodeMasterServer get).2 = .ok (.error err)) :
    (m.Collect get).panic = none ∧
    (m.Collect get).sent =
      [ { desc := m.up.desc, valType := .GaugeValue, value := .ofInt 0, labelValues := [] },
        { desc := m.totalScrapes.desc, valType := .CounterValue,
          value := .ofInt ((m.totalScrapes.count + 1 : Nat) : Int), labelValues := [] },
        { desc := m.jsonParseFailures.desc, valType := .CounterValue,
          value := .ofInt ((m.Collect get).state.jsonParseFailures.count : Int),
          labelValues := [] } ] ∧
    (m.Collect get).state.up.val = .ofInt 0 := by
  rcases get with _ | ⟨code, body⟩
  · simp [MasterServer.Collect, MasterServer.fetchAndDecodeMasterServer, Gauge.toMetric, Counter.toMetric, Gauge.Set,
      Counter.Inc]
  · by_cases hc : code = StatusOK
    · subst hc
      rcases body with _ | beans
      · simp [MasterServer.Collect, MasterServer.fetchAndDecodeMasterServer, Gauge.toMetric, Counter.toMetric, Gauge.Set,
          Counter.Inc]
      · rcases beans with _ | ⟨bean, rest⟩
        · simp [MasterServer.fetchAndDecodeMasterServer, index] at h
        · rcases bean with e | rec
          · simp [MasterServer.Collect, MasterServer.fetchAndDecodeMasterServer, index, Gauge.toMetric, Counter.toMetric,
              Gauge.Set, Counter.Inc]
          · simp [MasterServer.fetchAndDecodeMasterServer, index] at h
    · simp [MasterServer.Collect, MasterServer.fetchAndDecodeMasterServer, hc, Gauge.toMetric, Counter.toMetric, Gauge.Set,
        Counter.Inc]

theorem MasterServer_fetch_of_ok (m : MasterServer) (get : HttpGet (List (FixedBean masterServerResponse)))
    (rec : masterServerResponse) (h : (m.fetchAndDecodeMasterServer get).2 = .ok (.ok rec)) :
    ∃ rest, get = .response StatusOK (some (.ok rec :: rest)) := by
  rcases get with _ | ⟨code, body⟩
  · simp [MasterServer.fetchAndDecodeMasterServer] at h
  · by_cases hc : code = StatusOK
    · subst hc
      rcases body with _ | beans
      · simp [MasterServer.fetchAndDecodeMasterServer] at h
      · rcases beans with _ | ⟨bean, rest⟩
        · simp [MasterServer.fetchAndDecodeMasterServer, index] at h
        · rcases bean with e | rec2
          · simp [MasterServer.fetchAndDecodeMasterServer, index] at h
          · simp [MasterServer.fetchAndDecodeMasterServer, index] at h
            subst h
            exact ⟨rest, rfl⟩
    · simp [MasterServer.fetchAndDecodeMasterServer, hc] at h

theorem MasterServer_Collect_of_ok (m : MasterServer) (get : HttpGet (List (FixedBean masterServerResponse)))
    (rec : masterServerResponse) (hm : m.metrics = (NewMasterServer ToLower).metrics)
    (h : (m.fetchAndDecodeMasterServer get).2 = .ok (.ok rec)) :
    (m.Collect get).panic = none ∧
    (m.Collect get).sent =
      m.metrics.map (fun metric =>
        { desc := metric.Desc, valType := metric.Typ, value := metric.Value rec,
          labelValues := metric.Labels rec }) ++
      [ { desc := m.up.desc, valType := .GaugeValue, value := .ofInt 1, labelValues := [] },
        { desc := m.totalScrapes.desc, valType := .CounterValue,
          value := .ofInt ((m.totalScrapes.count + 1 : Nat) : Int), labelValues := [] },
        { desc := m.jsonParseFailures.desc, valType := .CounterValue,
          value := .ofInt (m.jsonParseFailures.count : Int), labelValues := [] } ] ∧
    m.metrics.length = 4 ∧ (m.Collect get).sent.length = 4 + 3 := by
  obtain ⟨rest, rfl⟩ := MasterServer_fetch_of_ok m get rec h
  have hl : m.metrics.length = 4 := by rw [hm]; rfl
  have hs : (m.Collect (.response StatusOK (some (.ok rec :: rest)))).panic = none ∧
      (m.Collect (.response StatusOK (some (.ok rec :: rest)))).sent =
      m.metrics.map (fun metric =>
        { desc := metric.Desc, valType := metric.Typ, value := metric.Value rec,
          labelValues := metric.Labels rec }) ++
      [ { desc := m.up.desc, valType := .GaugeValue, value := .ofInt 1, labelValues := [] },
        { desc := m.totalScrapes.desc, valType := .CounterValue,
          value := .ofInt ((m.totalScrapes.count + 1 : Nat) : Int), labelValues := [] },
        { desc := m.jsonParseFailures.desc, valType := .CounterValue,
          value := .ofInt (m.jsonParseFailures.count : Int), labelValues := [] } ] := by
    simp only [MasterServer.Collect, MasterServer.fetchAndDecodeMasterServer, index, List.get?, ne_eq, not_true_eq_false,
      if_false, hm]
    rw [sendAll_map_ok _ _ (fun metric =>
        { desc := metric.Desc, valType := metric.Typ, value := metric.Value rec,
          labelValues := metric.Labels rec })]
    · exact ⟨rfl, rfl⟩
    · intro a ha
      simp only [NewMasterServer, List.mem_cons, List.mem_singleton, List.not_mem_nil, or_false] at ha
      rcases ha with rfl | rfl | rfl | rfl <;> rfl
  refine ⟨hs.1, hs.2, hl, ?_⟩
  rw [hs.2]; simp [hl]

theorem RsServer_Collect_of_error (m : RsServer) (get : HttpGet (List (FixedBean rsServerResponse)))
    (err : GoError) (h : (m.fetchAndDecodeRsServer get).2 = .ok (.error err)) :
    (m.Collect get).panic = none ∧
    (m.Collect get).sent =
      [ { desc := m.up.desc, valType := .GaugeValue, value := .ofInt 0, labelValues := [] },
        { desc := m.totalScrapes.desc, valType := .CounterValue,
          value := .ofInt ((m.totalScrapes.count + 1 : Nat) : Int), labelValues := [] },
        { desc := m.jsonParseFailures.desc, valType := .CounterValue,
          value := .ofInt ((m.Collect get).state.jsonParseFailures.count : Int),
          labelValues := [] } ] ∧
    (m.Collect get).state.up.val = .ofInt 0 := by
  rcases get with _ | ⟨code, body⟩
  · simp [RsServer.Collect, RsServer.fetchAndDecodeRsServer, Gauge.toMetric, Counter.toMetric, Gauge.Set,
      Counter.Inc]
  · by_cases hc : code = StatusOK
    · subst hc
      rcases body with _ | beans
      · simp [RsServer.Collect, RsServer.fetchAndDecodeRsServer, Gauge.toMetric, Counter.toMetric, Gauge.Set,
          Counter.Inc]
      · rcases beans with _ | ⟨bean, rest⟩
        · simp [RsServer.fetchAndDecodeRsServer, index] at h
        · rcases bean with e | rec
          · simp [RsServer.Collect, RsServer.fetchAndDecodeRsServer, index, Gauge.toMetric, Counter.toMetric,
              Gauge.Set, Counter.Inc]
          · simp [RsServer.fetchAndDecodeRsServer, index] at h
    · simp [RsServer.Collect, RsServer.fetchAndDecodeRsServer, hc, Gauge.toMetric, Counter.toMetric, Gauge.Set,
        Counter.Inc]

theorem RsServer_fetch_of_ok (m : RsServer) (get : HttpGet (List (FixedBean rsServerResponse)))
    (rec : rsServerResponse) (h : (m.fetchAndDecodeRsServer get).2 = .ok (.ok rec)) :
    ∃ rest, get = .response StatusOK (some (.ok rec :: rest)) := by
  rcases get with _ | ⟨code, body⟩
  · simp [RsServer.fetchAndDecodeRsServer] at h
  · by_cases hc : code = StatusOK
    · subst hc
      rcases body with _ | beans
      · simp [RsServer.fetchAndDecodeRsServer] at h
      · rcases beans with _ | ⟨bean, rest⟩
        · simp [RsServer.fetchAndDecodeRsServer, index] at h
        · rcases bean with e | rec2
          · simp [RsServer.fetchAndDecodeRsServer, index] at h
          · simp [RsServer.fetchAndDecodeRsServer, index] at h
            subst h
            exact ⟨rest, rfl⟩
    · simp [RsServer.fetchAndDecodeRsServer, hc] at h

theorem RsServer_Collect_of_ok (m : RsServer) (get : HttpGet (List (FixedBean rsServerResponse)))
    (rec : rsServerResponse) (hm : m.metrics = (NewRsServer ToLower).metrics)
    (h : (m.fetchAndDecodeRsServer get).2 = .ok (.ok rec)) :
    (m.Collect get).panic = none ∧
    (m.Collect get).sent =
      m.metrics.map (fun metric =>
        { desc := metric.Desc, valType := metric.Typ, value := metric.Value rec,
          labelValues := metric.Labels rec }) ++
      [ { desc := m.up.desc, valType := .GaugeValue, value := .ofInt 1, labelValues := [] },
        { desc := m.totalScrapes.desc, valType := .CounterValue,
          value := .ofInt ((m.totalScrapes.count + 1 : Nat) : Int), labelValues := [] },
        { desc := m.jsonParseFailures.desc, valType := .CounterValue,
          value := .ofInt (m.jsonParseFailures.count : Int), labelValues := [] } ] ∧
    m.metrics.length = 15 ∧ (m.Collect get).sent.length = 15 + 3 := by
  obtain ⟨rest, rfl⟩ := RsServer_fetch_of_ok m get rec h
  have hl : m.metrics.length = 15 := by rw [hm]; rfl
  have hs : (m.Collect (.response StatusOK (some (.ok rec :: rest)))).panic = none ∧
      (m.Collect (.response StatusOK (some (.ok rec :: rest)))).sent =
      m.metrics.map (fun metric =>
        { desc := metric.Desc, valType := metric.Typ, value := metric.Value rec,
          labelValues := metric.Labels rec }) ++
      [ { desc := m.up.desc, valType := .GaugeValue, value := .ofInt 1, labelValues := [] },
        { desc := m.totalScrapes.desc, valType := .CounterValue,
          value := .ofInt ((m.totalScrapes.count + 1 : Nat) : Int), labelValues := [] },
        { desc := m.jsonParseFailures.desc, valType := .CounterValue,
          value := .ofInt (m.jsonParseFailures.count : Int), labelValues := [] } ] := by
    simp only [RsServer.Collect, RsServer.fetchAndDecodeRsServer, index, List.get?, ne_eq, not_true_eq_false,
      if_false, hm]
    rw [sendAll_map_ok _ _ (fun metric =>
        { desc := metric.Desc, valType := metric.Typ, value := metric.Value rec,
          labelValues := metric.Labels rec })]
    · exact ⟨rfl, rfl⟩
    · intro a ha
      simp only [NewRsServer, List.mem_cons, List.mem_singleton, List.not_mem_nil, or_false] at ha
      rcases ha with rfl | rfl | rfl | rfl | rfl | rfl | rfl | rfl | rfl | rfl | rfl | rfl | rfl | rfl | rfl <;> rfl
  refine ⟨hs.1, hs.2, hl, ?_⟩
  rw [hs.2]; simp [hl]

/-- Induction over a sequence of cycles: a property indexed by the number of
cycles run that one cycle carries to the next count. -/
theorem runCycles_induction {σ β : Type} (step : σ → β → Cycle σ) (Q : Nat → σ → Prop)
    (hstep : ∀ n m get, Q n m → Q (n + 1) (step m get).state) :
    ∀ (gets : List β) (n : Nat) (m : σ), Q n m → Q (n + gets.length) (runCycles step m gets)
  | [], n, m, h => by simpa [runCycles] using h
  | get :: rest, n, m, h => by
    have h1 := runCycles_induction step Q hstep rest (n + 1) (step m get).state
      (hstep n m get h)
    have e : n + (get :: rest).length = n + 1 + rest.length := by simp; omega
    rw [e]; exact h1

theorem HBaseJvm_Collect_state (m : HBaseJvm)
    (get : HttpGet (List (FixedBean hbaseJvmResponse))) :
    (m.Collect get).state.metrics = m.metrics ∧
    (m.Collect get).state.up.desc = m.up.desc ∧
    (m.Collect get).state.totalScrapes = m.totalScrapes.Inc ∧
    (m.Collect get).state.jsonParseFailures.desc = m.jsonParseFailures.desc ∧
    m.jsonParseFailures.count ≤ (m.Collect get).state.jsonParseFailures.count ∧
    (m.Collect get).state.jsonParseFailures.count ≤ m.jsonParseFailures.count + 1 ∧
    ((m.Collect get).state.up.val = m.up.val ∨ (m.Collect get).state.up.val = .ofInt 0 ∨
      (m.Collect get).state.up.val = .ofInt 1) ∧
    (m.Collect get).state.totalScrapes.toMetric ∈ (m.Collect get).sent := by
  rcases get with _ | ⟨code, body⟩
  · simp [HBaseJvm.Collect, HBaseJvm.fetchAndDecodeHBaseJvm, Gauge.Set]
  · by_cases hc : code = StatusOK
    · subst hc
      rcases body with _ | beans
      · simp [HBaseJvm.Collect, HBaseJvm.fetchAndDecodeHBaseJvm, Gauge.Set, Counter.Inc]
      · rcases beans with _ | ⟨bean, rest⟩
        · simp [HBaseJvm.Collect, HBaseJvm.fetchAndDecodeHBaseJvm, index]
        · rcases bean with e | rec
          · simp [HBaseJvm.Collect, HBaseJvm.fetchAndDecodeHBaseJvm, index, Gauge.Set, Counter.Inc]
          · simp [HBaseJvm.Collect, HBaseJvm.fetchAndDecodeHBaseJvm, index, Gauge.Set]
    · simp [HBaseJvm.Collect, HBaseJvm.fetchAndDecodeHBaseJvm, hc, Gauge.Set]

theorem HBaseJvm_Collect_up_of_ok (m : HBaseJvm)
    (get : HttpGet (List (FixedBean hbaseJvmResponse))) (rec : hbaseJvmResponse)
    (h : (m.fetchAndDecodeHBaseJvm get).2 = .ok (.ok rec)) :
    (m.Collect get).state.up.val = .ofInt 1 ∧
    (m.Collect get).state.jsonParseFailures = m.jsonParseFailures := by
  obtain ⟨rest, rfl⟩ := HBaseJvm_fetch_of_ok m get rec h
  simp [HBaseJvm.Collect, HBaseJvm.fetchAndDecodeHBaseJvm, index, Gauge.Set]

/-- What holds of a `HBaseJvm` after any number of cycles from its construction. -/
theorem HBaseJvm_reachable (gets : List (HttpGet (List (FixedBean hbaseJvmResponse)))) :
    (runCycles HBaseJvm.Collect (NewHBaseJvm ToLower) gets).metrics
      = (NewHBaseJvm ToLower).metrics ∧
    (runCycles HBaseJvm.Collect (NewHBaseJvm ToLower) gets).up.desc
      = (NewHBaseJvm ToLower).up.desc ∧
    (runCycles HBaseJvm.Collect (NewHBaseJvm ToLower) gets).totalScrapes
      = { desc := (NewHBaseJvm ToLower).totalScrapes.desc, count := gets.length } ∧
    (runCycles HBaseJvm.Collect (NewHBaseJvm ToLower) gets).jsonParseFailures.desc
      = (NewHBaseJvm ToLower).jsonParseFailures.desc ∧
    (runCycles HBaseJvm.Collect (NewHBaseJvm ToLower) gets).jsonParseFailures.count
      ≤ gets.length ∧
    ((runCycles HBaseJvm.Collect (NewHBaseJvm ToLower) gets).up.val = .ofInt 0 ∨
      (runCycles HBaseJvm.Collect (NewHBaseJvm ToLower) gets).up.val = .ofInt 1) := by
  have h := runCycles_induction HBaseJvm.Collect
    (fun n m => m.metrics = (NewHBaseJvm ToLower).metrics ∧
      m.up.desc = (NewHBaseJvm ToLower).up.desc ∧
      m.totalScrapes = { desc := (NewHBaseJvm ToLower).totalScrapes.desc, count := n } ∧
      m.jsonParseFailures.desc = (NewHBaseJvm ToLower).jsonParseFailures.desc ∧
      m.jsonParseFailures.count ≤ n ∧
      (m.up.val = .ofInt 0 ∨ m.up.val = .ofInt 1))
    (by
      intro n m get ⟨q1, q2, q3, q4, q5, q6⟩
      obtain ⟨s1, s2, s3, s4, _, s6, s7, _⟩ := HBaseJvm_Collect_state m get
      refine ⟨s1.trans q1, s2.trans q2, ?_, s4.trans q4, by omega, ?_⟩
      · rw [s3, q3]; rfl
      · rcases s7 with s7 | s7 | s7
        · rw [s7]; exact q6
        · exact Or.inl s7
        · exact Or.inr s7)
    gets 0 (NewHBaseJvm ToLower)
    ⟨rfl, rfl, rfl, rfl, Nat.le_refl _, Or.inl rfl⟩
  simpa using h

theorem MasterServer_Collect_state (m : MasterServer)
    (get : HttpGet (List (FixedBean masterServerResponse))) :
    (m.Collect get).state.metrics = m.metrics ∧
    (m.Collect get).state.up.desc = m.up.desc ∧
    (m.Collect get).state.totalScrapes = m.totalScrapes.Inc ∧
    (m.Collect get).state.jsonParseFailures.desc = m.jsonParseFailures.desc ∧
    m.jsonParseFailures.count ≤ (m.Collect get).state.jsonParseFailures.count ∧
    (m.Collect get).state.jsonParseFailures.count ≤ m.jsonParseFailures.count + 1 ∧
    ((m.Collect get).state.up.val = m.up.val ∨ (m.Collect get).state.up.val = .ofInt 0 ∨
      (m.Collect get).state.up.val = .ofInt 1) ∧
    (m.Collect get).state.totalScrapes.toMetric ∈ (m.Collect get).sent := by
  rcases get with _ | ⟨code, body⟩
  · simp [MasterServer.Collect, MasterServer.fetchAndDecodeMasterServer, Gauge.Set]
  · by_cases hc : code = StatusOK
    · subst hc
      rcases body with _ | beans
      · simp [MasterServer.Collect, MasterServer.fetchAndDecodeMasterServer, Gauge.Set, Counter.Inc]
      · rcases beans with _ | ⟨bean, rest⟩
        · simp [MasterServer.Collect, MasterServer.fetchAndDecodeMasterServer, index]
        · rcases bean with e | rec
          · simp [MasterServer.Collect, MasterServer.fetchAndDecodeMasterServer, index, Gauge.Set, Counter.Inc]
          · simp [MasterServer.Collect, MasterServer.fetchAndDecodeMasterServer, index, Gauge.Set]
    · simp [MasterServer.Collect, MasterServer.fetchAndDecodeMasterServer, hc, Gauge.Set]

theorem MasterServer_Collect_up_of_ok (m : MasterServer)
    (get : HttpGet (List (FixedBean masterServerResponse))) (rec : masterServerResponse)
    (h : (m.fetchAndDecodeMasterServer get).2 = .ok (.ok rec)) :
    (m.Collect get).state.up.val = .ofInt 1 ∧
    (m.Collect get).state.jsonParseFailures = m.jsonParseFailures := by
  obtain ⟨rest, rfl⟩ := MasterServer_fetch_of_ok m get rec h
  simp [MasterServer.Collect, MasterServer.fetchAndDecodeMasterServer, index, Gauge.Set]

/-- What holds of a `MasterServer` after any number of cycles from its construction. -/
theorem MasterServer_reachable (gets : List (HttpGet (List (FixedBean masterServerResponse)))) :
    (runCycles MasterServer.Collect (NewMasterServer ToLower) gets).metrics
      = (NewMasterServer ToLower).metrics ∧
    (runCycles MasterServer.Collect (NewMasterServer ToLower) gets).up.desc
      = (NewMasterServer ToLower).up.desc ∧
    (runCycles MasterServer.Collect (NewMasterServer ToLower) gets).totalScrapes
      = { desc := (NewMasterServer ToLower).totalScrapes.desc, count := gets.length } ∧
    (runCycles MasterServer.Collect (NewMasterServer ToLower) gets).jsonParseFailures.desc
      = (NewMasterServer ToLower).jsonParseFailures.desc ∧
    (runCycles MasterServer.Collect (NewMasterServer ToLower) gets).jsonParseFailures.count
      ≤ gets.length ∧
    ((runCycles MasterServer.Collect (NewMasterServer ToLower) gets).up.val = .ofInt 0 ∨
      (runCycles MasterServer.Collect (NewMasterServer ToLower) gets).up.val = .ofInt 1) := by
  have h := runCycles_induction MasterServer.Collect
    (fun n m => m.metrics = (NewMasterServer ToLower).metrics ∧
      m.up.desc = (NewMasterServer ToLower).up.desc ∧
      m.totalScrapes = { desc := (NewMasterServer ToLower).totalScrapes.desc, count := n } ∧
      m.jsonParseFailures.desc = (NewMasterServer ToLower).jsonParseFailures.desc ∧
      m.jsonParseFailures.count ≤ n ∧
      (m.up.val = .ofInt 0 ∨ m.up.val = .ofInt 1))
    (by
      intro n m get ⟨q1, q2, q3, q4, q5, q6⟩
      obtain ⟨s1, s2, s3, s4, _, s6, s7, _⟩ := MasterServer_Collect_state m get
      refine ⟨s1.trans q1, s2.trans q2, ?_, s4.trans q4, by omega, ?_⟩
      · rw [s3, q3]; rfl
      · rcases s7 with s7 | s7 | s7
        · rw [s7]; exact q6
        · exact Or.inl s7
        · exact Or.inr s7)
    gets 0 (NewMasterServer ToLower)
    ⟨rfl, rfl, rfl, rfl, Nat.le_refl _, Or.inl rfl⟩
  simpa using h

theorem RsServer_Collect_state (m : RsServer)
    (get : HttpGet (List (FixedBean rsServerResponse))) :
    (m.Collect get).state.metrics = m.metrics ∧
    (m.Collect get).state.up.desc = m.up.desc ∧
    (m.Collect get).state.totalScrapes = m.totalScrapes.Inc ∧
    (m.Collect get).state.jsonParseFailures.desc = m.jsonParseFailures.desc ∧
    m.jsonParseFailures.count ≤ (m.Collect get).state.jsonParseFailures.count ∧
    (m.Collect get).state.jsonParseFailures.count ≤ m.jsonParseFailures.count + 1 ∧
    ((m.Collect get).state.up.val = m.up.val ∨ (m.Collect get).state.up.val = .ofInt 0 ∨
      (m.Collect get).state.up.val = .ofInt 1) ∧
    (m.Collect get).state.totalScrapes.toMetric ∈ (m.Collect get).sent := by
  rcases get with _ | ⟨code, body⟩
  · simp [RsServer.Collect, RsServer.fetchAndDecodeRsServer, Gauge.Set]
  · by_cases hc : code = StatusOK
    · subst hc
      rcases body with _ | beans
      · simp [RsServer.Collect, RsServer.fetchAndDecodeRsServer, Gauge.Set, Counter.Inc]
      · rcases beans with _ | ⟨bean, rest⟩
        · simp [RsServer.Collect, RsServer.fetchAndDecodeRsServer, index]
        · rcases bean with e | rec
          · simp [RsServer.Collect, RsServer.fetchAndDecodeRsServer, index, Gauge.Set, Counter.Inc]
          · simp [RsServer.Collect, RsServer.fetchAndDecodeRsServer, index, Gauge.Set]
    · simp [RsServer.Collect, RsServer.fetchAndDecodeRsServer, hc, Gauge.Set]

theorem RsServer_Collect_up_of_ok (m : RsServer)
    (get : HttpGet (List (FixedBean rsServerResponse))) (rec : rsServerResponse)
    (h : (m.fetchAndDecodeRsServer get).2 = .ok (.ok rec)) :
    (m.Collect get).state.up.val = .ofInt 1 ∧
    (m.Collect get).state.jsonParseFailures = m.jsonParseFailures := by
  obtain ⟨rest, rfl⟩ := RsServer_fetch_of_ok m get rec h
  simp [RsServer.Collect, RsServer.fetchAndDecodeRsServer, index, Gauge.Set]

/-- What holds of a `RsServer` after any number of cycles from its construction. -/
theorem RsServer_reachable (gets : List (HttpGet (List (FixedBean rsServerResponse)))) :
    (runCycles RsServer.Collect (NewRsServer ToLower) gets).metrics
      = (NewRsServer ToLower).metrics ∧
    (runCycles RsServer.Collect (NewRsServer ToLower) gets).up.desc
      = (NewRsServer ToLower).up.desc ∧
    (runCycles RsServer.Collect (NewRsServer ToLower) gets).totalScrapes
      = { desc := (NewRsServer ToLower).totalScrapes.desc, count := gets.length } ∧
    (runCycles RsServer.Collect (NewRsServer ToLower) gets).jsonParseFailures.desc
      = (NewRsServer ToLower).jsonParseFailures.desc ∧
    (runCycles RsServer.Collect (NewRsServer ToLower) gets).jsonParseFailures.count
      ≤ gets.length ∧
    ((runCycles RsServer.Collect (NewRsServer ToLower) gets).up.val = .ofInt 0 ∨
      (runCycles RsServer.Collect (NewRsServer ToLower) gets).up.val = .ofInt 1) := by
  have h := runCycles_induction RsServer.Collect
    (fun n m => m.metrics = (NewRsServer ToLower).metrics ∧
      m.up.desc = (NewRsServer ToLower).up.desc ∧
      m.totalScrapes = { desc := (NewRsServer ToLower).totalScrapes.desc, count := n } ∧
      m.jsonParseFailures.desc = (NewRsServer ToLower).jsonParseFailures.desc ∧
      m.jsonParseFailures.count ≤ n ∧
      (m.up.val = .ofInt 0 ∨ m.up.val = .ofInt 1))
    (by
      intro n m get ⟨q1, q2, q3, q4, q5, q6⟩
      obtain ⟨s1, s2, s3, s4, _, s6, s7, _⟩ := RsServer_Collect_state m get
      refine ⟨s1.trans q1, s2.trans q2, ?_, s4.trans q4, by omega, ?_⟩
      · rw [s3, q3]; rfl
      · rcases s7 with s7 | s7 | s7
        · rw [s7]; exact q6
        · exact Or.inl s7
        · exact Or.inr s7)
    gets 0 (NewRsServer ToLower)
    ⟨rfl, rfl, rfl, rfl, Nat.le_refl _, Or.inl rfl⟩
  simpa using h

end FixedLemmas

/-! ## The composite-key parser -/

/-- C1 (counterexample).  The dimension values `x_table`, `t1`, `r1`, `m1`
contain none of the four separators, yet the key built from them is decomposed
into `x`, `table_t1`, `r1`, `m1`: the first `_table_` of the key starts inside
the namespace. -/
theorem C1_split_canonical_counterexample :
    NoSeparator "x_table".toList ∧ NoSeparator "t1".toList ∧
    NoSeparator "r1".toList ∧ NoSeparator "m1".toList ∧
    utils.SplitHBaseRegionStr
        (compositeKey "x_table".toList "t1".toList "r1".toList "m1".toList)
      = .ok ["x".toList, "table_t1".toList, "r1".toList, "m1".toList] ∧
    utils.SplitHBaseRegionStr
        (compositeKey "x_table".toList "t1".toList "r1".toList "m1".toList)
      ≠ .ok ["x_table".toList, "t1".toList, "r1".toList, "m1".toList] := by
  decide

/-- C1 (amended).  For all strings ns, table, region and metric none of which
contains any of the separators `Namespace_`, `_table_`, `_region_`, `_metric_`,
and such that ns does not end with `_table`, table does not end with `_region`
and region does not end with `_metric`, `SplitHBaseRegionStr` applied to the key
`Namespace_` ++ ns ++ `_table_` ++ table ++ `_region_` ++ region ++ `_metric_`
++ metric returns exactly the list [ns, table, region, metric]. -/
theorem C1_split_canonical (ns table region metric : GoString)
    (hns : NoSeparator ns) (htable : NoSeparator table)
    (hregion : NoSeparator region) (_hmetric : NoSeparator metric)
    (e1 : strings.HasSuffix ns "_table".toList = false)
    (e2 : strings.HasSuffix table "_region".toList = false)
    (e3 : strings.HasSuffix region "_metric".toList = false) :
    utils.SplitHBaseRegionStr (compositeKey ns table region metric)
      = .ok [ns, table, region, metric] :=
  SplitHBaseRegionStr_compositeKey ns table region metric
    (hns _ (by decide)) (htable _ (by decide)) (hregion _ (by decide)) e1 e2 e3

/-- C1 (witnesses).  The two keys named by the claim:
`Namespace_n1_table_t1_region_r1_metric_m1` gives [n1, t1, r1, m1] and
`Namespace_default_table_t1_region_r1_metric_storeCount` gives
[default, t1, r1, storeCount]. -/
theorem C1_split_canonical_witness :
    (compositeKey "n1".toList "t1".toList "r1".toList "m1".toList
        = "Namespace_n1_table_t1_region_r1_metric_m1".toList ∧
     utils.SplitHBaseRegionStr "Namespace_n1_table_t1_region_r1_metric_m1".toList
        = .ok ["n1".toList, "t1".toList, "r1".toList, "m1".toList]) ∧
    (compositeKey "default".toList "t1".toList "r1".toList "storeCount".toList
        = "Namespace_default_table_t1_region_r1_metric_storeCount".toList ∧
     utils.SplitHBaseRegionStr
          "Namespace_default_table_t1_region_r1_metric_storeCount".toList
        = .ok ["default".toList, "t1".toList, "r1".toList, "storeCount".toList]) :=
  ⟨⟨by decide,
    C1_split_canonical "n1".toList "t1".toList "r1".toList "m1".toList
      (by decide) (by decide) (by decide) (by decide) (by decide) (by decide) (by decide)⟩,
   ⟨by decide,
    C1_split_canonical "default".toList "t1".toList "r1".toList "storeCount".toList
      (by decide) (by decide) (by decide) (by decide) (by decide) (by decide) (by decide)⟩⟩

/-- C2.  Round-trip law: for every canonical key
`Namespace_<ns>_table_<table>_region_<region>_metric_<metric>` whose dimension
values contain no separator, `SplitHBaseRegionStr` returns a list of four parts,
and whenever it returns [a, b, c, d], joining `Namespace_`, a, `_table_`, b,
`_region_`, c, `_metric_`, d gives the key back.  (The proof does not use the
hypotheses: the law holds for every canonical key.) -/
theorem C2_roundtrip (ns table region metric : GoString)
    (_hns : NoSeparator ns) (_htable : NoSeparator table)
    (_hregion : NoSeparator region) (_hmetric : NoSeparator metric) :
    (∃ a b c d, utils.SplitHBaseRegionStr (compositeKey ns table region metric)
        = .ok [a, b, c, d]) ∧
    ∀ a b c d, utils.SplitHBaseRegionStr (compositeKey ns table region metric)
        = .ok [a, b, c, d] →
      compositeKey a b c d = compositeKey ns table region metric := by
  obtain ⟨a, b, c, d, h, hk⟩ := compositeKey_roundtrip ns table region metric
  refine ⟨⟨a, b, c, d, h⟩, ?_⟩
  intro a2 b2 c2 d2 h2
  rw [h] at h2
  injection h2 with h3
  injection h3 with ha h4
  injection h4 with hb h5
  injection h5 with hc h6
  injection h6 with hd _
  subst ha hb hc hd
  exact hk

/-- C2 (witness).  The key `Namespace_default_table_t1_region_r1_metric_storeCount`
is decomposed into four parts that rejoin to it. -/
theorem C2_roundtrip_witness :
    (∃ a b c d, utils.SplitHBaseRegionStr
        (compositeKey "default".toList "t1".toList "r1".toList "storeCount".toList)
          = .ok [a, b, c, d]) ∧
    ∀ a b c d, utils.SplitHBaseRegionStr
        (compositeKey "default".toList "t1".toList "r1".toList "storeCount".toList)
          = .ok [a, b, c, d] →
      compositeKey a b c d
        = compositeKey "default".toList "t1".toList "r1".toList "storeCount".toList :=
  C2_roundtrip "default".toList "t1".toList "r1".toList "storeCount".toList
    (by decide) (by decide) (by decide) (by decide)

/-! ## The per-region collector -/

section Region

open collector prometheus

/-- C3 (the code at the failing input).  The truncated key
`Namespace_default_table_t1_region_r1` makes `SplitHBaseRegionStr` panic with an
index out of range, and a snapshot that holds it together with the valid key
`Namespace_default_table_t1_region_r1_metric_storeCount` makes the whole cycle
panic without a single sample sent, whichever of the two keys is visited
first. -/
theorem C3_truncated_key_aborts_cycle :
    utils.SplitHBaseRegionStr "Namespace_default_table_t1_region_r1".toList
      = .error (.indexOutOfRange 1 1) ∧
    (NewRsRegion.Collect (.response 200 (some [[
        ("Namespace_default_table_t1_region_r1_metric_storeCount".toList,
          ⟨"42".toList, .ofBits 0x4045000000000000⟩),
        ("Namespace_default_table_t1_region_r1".toList,
          ⟨"7".toList, .ofBits 0x401C000000000000⟩)]]))).sent = [] ∧
    (NewRsRegion.Collect (.response 200 (some [[
        ("Namespace_default_table_t1_region_r1_metric_storeCount".toList,
          ⟨"42".toList, .ofBits 0x4045000000000000⟩),
        ("Namespace_default_table_t1_region_r1".toList,
          ⟨"7".toList, .ofBits 0x401C000000000000⟩)]]))).panic
      = some (.indexOutOfRange 1 1) ∧
    (NewRsRegion.Collect (.response 200 (some [[
        ("Namespace_default_table_t1_region_r1".toList,
          ⟨"7".toList, .ofBits 0x401C000000000000⟩),
        ("Namespace_default_table_t1_region_r1_metric_storeCount".toList,
          ⟨"42".toList, .ofBits 0x4045000000000000⟩)]]))).sent = [] ∧
    (NewRsRegion.Collect (.response 200 (some [[
        ("Namespace_default_table_t1_region_r1".toList,
          ⟨"7".toList, .ofBits 0x401C000000000000⟩),
        ("Namespace_default_table_t1_region_r1_metric_storeCount".toList,
          ⟨"42".toList, .ofBits 0x4045000000000000⟩)]]))).panic
      = some (.indexOutOfRange 1 1) := by
  decide

/-- C4 (the code at the failing input).  A buffer with one entry, of the
recognised metric `storeCount`, whose namespace is the single byte 0xFF, which
is not valid UTF-8: `MustNewConstMetric` panics on the label value, so the
dispatch loop sends no sample for the one recognised entry and ends in a panic.
Between two entries with valid labels the same entry stops the loop after the
first sample. -/
theorem C4_dispatch_panics_on_invalid_label :
    utf8.ValidString [Char.ofNat 0xFF] = false ∧
    [({ Namespace := [Char.ofNat 0xFF], Table := "t1".toList, Region := "r1".toList,
        Metric := "storeCount".toList, Value := .ofBits 0x4045000000000000 } :
        hbaseRegionJmxMetric)].countP
      (fun e => decide (e.Metric ∈ recognisedMetrics)) = 1 ∧
    dispatchLoop "h1".toList "regionserver".toList
        [{ Namespace := [Char.ofNat 0xFF], Table := "t1".toList, Region := "r1".toList,
           Metric := "storeCount".toList, Value := .ofBits 0x4045000000000000 }]
      = ([], some .invalidLabelValue) ∧
    (dispatchLoop "h1".toList "regionserver".toList
        [{ Namespace := "default".toList, Table := "t1".toList, Region := "r1".toList,
           Metric := "storeCount".toList, Value := .ofBits 0x4045000000000000 },
         { Namespace := [Char.ofNat 0xFF], Table := "t1".toList, Region := "r1".toList,
           Metric := "storeCount".toList, Value := .ofBits 0x4045000000000000 },
         { Namespace := "default".toList, Table := "t1".toList, Region := "r2".toList,
           Metric := "storeCount".toList, Value := .ofBits 0x401C000000000000 }]).1.length
      = 1 ∧
    (dispatchLoop "h1".toList "regionserver".toList
        [{ Namespace := "default".toList, Table := "t1".toList, Region := "r1".toList,
           Metric := "storeCount".toList, Value := .ofBits 0x4045000000000000 },
         { Namespace := [Char.ofNat 0xFF], Table := "t1".toList, Region := "r1".toList,
           Metric := "storeCount".toList, Value := .ofBits 0x4045000000000000 },
         { Namespace := "default".toList, Table := "t1".toList, Region := "r2".toList,
           Metric := "storeCount".toList, Value := .ofBits 0x401C000000000000 }]).2
      = some .invalidLabelValue := by
  decide

/-- C7 (the code at the failing input).  For an entry of each recognised
identifier, in the order of the enumeration, the sample sent by the dispatch
loop carries a descriptor built on the spot whose name has no `region`
subsystem (`hbase_store_count`, ...), whereas the descriptor table built by
`NewRsRegion`, which `Describe` enumerates, holds `hbase_region_store_count`,
...; no sample sent carries a descriptor of the table. -/
theorem C7_emitted_descriptor_differs_from_table :
    recognisedMetrics.map (fun id =>
        (dispatch "h1".toList "regionserver".toList
          { Namespace := "default".toList, Table := "t1".toList, Region := "r1".toList,
            Metric := id, Value := .ofInt 0 }).map (Option.map (·.desc.fqName)))
      = [.ok (some "hbase_store_count".toList),
         .ok (some "hbase_store_file_count".toList),
         .ok (some "hbase_mem_store_size".toList),
         .ok (some "hbase_store_file_size".toList),
         .ok (some "hbase_compactions_completed_count".toList),
         .ok (some "hbase_read_request_count".toList),
         .ok (some "hbase_write_request_count".toList),
         .ok (some "hbase_num_files_compacted_count".toList),
         .ok (some "hbase_num_bytes_compacted_count".toList)] ∧
    NewRsRegion.Describe.map (·.fqName)
      = ["hbase_region_read_request_count".toList,
         "hbase_region_write_request_count".toList,
         "hbase_region_store_count".toList,
         "hbase_region_store_file_count".toList,
         "hbase_region_mem_store_size".toList,
         "hbase_region_store_file_size".toList,
         "hbase_region_compactions_completed_count".toList,
         "hbase_region_num_bytes_compacted_count".toList,
         "hbase_region_num_files_compacted_count".toList] ∧
    recognisedMetrics.all (fun id =>
        match dispatch "h1".toList "regionserver".toList
          { Namespace := "default".toList, Table := "t1".toList, Region := "r1".toList,
            Metric := id, Value := .ofInt 0 } with
        | .ok (some x) => decide (x.desc ∉ NewRsRegion.Describe)
        | _ => false) = true := by
  decide

/-- C8 (the code at the failing input).  A snapshot with host `h1`, role
`regionserver` and the one key `Namespace_`, byte 0xFF,
`_table_t1_region_r1_metric_storeCount` of value 42: the key is decoded into the
recognised buffered entry (byte 0xFF, t1, r1, storeCount, 42), but the label
value 0xFF is not valid UTF-8, `MustNewConstMetric` panics, and the cycle sends
no sample for the entry.  The same happens when the host tag is the byte
0xFF and the key is valid. -/
theorem C8_invalid_label_aborts_cycle :
    (NewRsRegion.fetchAndDecodeRsRegion (.response 200 (some [[
        ("tag.Hostname".toList, ⟨"h1".toList, .ofInt 0⟩),
        ("tag.Context".toList, ⟨"regionserver".toList, .ofInt 0⟩),
        ("Namespace_".toList ++ [Char.ofNat 0xFF]
            ++ "_table_t1_region_r1_metric_storeCount".toList,
          ⟨"42".toList, .ofBits 0x4045000000000000⟩)]]))).1.jmxs
      = [{ Namespace := [Char.ofNat 0xFF], Table := "t1".toList, Region := "r1".toList,
           Metric := "storeCount".toList, Value := .ofBits 0x4045000000000000 }] ∧
    (NewRsRegion.Collect (.response 200 (some [[
        ("tag.Hostname".toList, ⟨"h1".toList, .ofInt 0⟩),
        ("tag.Context".toList, ⟨"regionserver".toList, .ofInt 0⟩),
        ("Namespace_".toList ++ [Char.ofNat 0xFF]
            ++ "_table_t1_region_r1_metric_storeCount".toList,
          ⟨"42".toList, .ofBits 0x4045000000000000⟩)]]))).sent = [] ∧
    (NewRsRegion.Collect (.response 200 (some [[
        ("tag.Hostname".toList, ⟨"h1".toList, .ofInt 0⟩),
        ("tag.Context".toList, ⟨"regionserver".toList, .ofInt 0⟩),
        ("Namespace_".toList ++ [Char.ofNat 0xFF]
            ++ "_table_t1_region_r1_metric_storeCount".toList,
          ⟨"42".toList, .ofBits 0x4045000000000000⟩)]]))).panic
      = some .invalidLabelValue ∧
    (NewRsRegion.Collect (.response 200 (some [[
        ("tag.Hostname".toList, ⟨[Char.ofNat 0xFF], .ofInt 0⟩),
        ("tag.Context".toList, ⟨"regionserver".toList, .ofInt 0⟩),
        ("Namespace_default_table_t1_region_r1_metric_storeCount".toList,
          ⟨"42".toList, .ofBits 0x4045000000000000⟩)]]))).sent = [] ∧
    (NewRsRegion.Collect (.response 200 (some [[
        ("tag.Hostname".toList, ⟨[Char.ofNat 0xFF], .ofInt 0⟩),
        ("tag.Context".toList, ⟨"regionserver".toList, .ofInt 0⟩),
        ("Namespace_default_table_t1_region_r1_metric_storeCount".toList,
          ⟨"42".toList, .ofBits 0x4045000000000000⟩)]]))).panic
      = some .invalidLabelValue := by
  decide

/-- C9 (the code at the failing input).  The guard of the decoder is
`HasPrefix(k, "Namespace")`, without the underscore: the key `NamespaceCount`
does not start with `Namespace_`, is handed to `SplitHBaseRegionStr` all the
same, and makes the cycle panic with an index out of range, no sample sent. -/
theorem C9_key_without_underscore_is_parsed :
    strings.HasPrefix "NamespaceCount".toList "Namespace_".toList = false ∧
    strings.HasPrefix "NamespaceCount".toList "Namespace".toList = true ∧
    decodeAttribute "NamespaceCount".toList ⟨"3".toList, .ofInt 3⟩
      = .error (.indexOutOfRange 1 1) ∧
    (NewRsRegion.Collect (.response 200 (some [[
        ("tag.Hostname".toList, ⟨"h1".toList, .ofInt 0⟩),
        ("NamespaceCount".toList, ⟨"3".toList, .ofInt 3⟩)]]))).panic
      = some (.indexOutOfRange 1 1) ∧
    (NewRsRegion.Collect (.response 200 (some [[
        ("tag.Hostname".toList, ⟨"h1".toList, .ofInt 0⟩),
        ("NamespaceCount".toList, ⟨"3".toList, .ofInt 3⟩)]]))).sent = [] := by
  decide

end Region

/-! ## The fixed-schema collectors -/

section Fixed

open collector prometheus

/-- C5.  For each fixed-schema collector (HBaseJvm, MasterServer, RsServer) and
every cycle in which `fetchAndDecode` returns an error, `Collect` ends without a
panic and sends exactly three samples, in this order: up with value 0,
total-scrapes (the count before the cycle plus one) and parse-failures; no
sample of the metric table is sent. -/
theorem C5_failed_cycle_sends_bookkeeping_only :
    (∀ (m : HBaseJvm) (get : HttpGet (List (FixedBean hbaseJvmResponse))) (err : GoError),
      (m.fetchAndDecodeHBaseJvm get).2 = .ok (.error err) →
      (m.Collect get).panic = none ∧
      (m.Collect get).sent =
        [ { desc := m.up.desc, valType := .GaugeValue, value := .ofInt 0,
            labelValues := [] },
          { desc := m.totalScrapes.desc, valType := .CounterValue,
            value := .ofInt ((m.totalScrapes.count + 1 : Nat) : Int), labelValues := [] },
          { desc := m.jsonParseFailures.desc, valType := .CounterValue,
            value := .ofInt ((m.Collect get).state.jsonParseFailures.count : Int),
            labelValues := [] } ] ∧
      (m.Collect get).sent.length = 3 ∧
      (m.Collect get).state.up.val = .ofInt 0) ∧
    (∀ (m : MasterServer) (get : HttpGet (List (FixedBean masterServerResponse))) (err : GoError),
      (m.fetchAndDecodeMasterServer get).2 = .ok (.error err) →
      (m.Collect get).panic = none ∧
      (m.Collect get).sent =
        [ { desc := m.up.desc, valType := .GaugeValue, value := .ofInt 0,
            labelValues := [] },
          { desc := m.totalScrapes.desc, valType := .CounterValue,
            value := .ofInt ((m.totalScrapes.count + 1 : Nat) : Int), labelValues := [] },
          { desc := m.jsonParseFailures.desc, valType := .CounterValue,
            value := .ofInt ((m.Collect get).state.jsonParseFailures.count : Int),
            labelValues := [] } ] ∧
      (m.Collect get).sent.length = 3 ∧
      (m.Collect get).state.up.val = .ofInt 0) ∧
    (∀ (m : RsServer) (get : HttpGet (List (FixedBean rsServerResponse))) (err : GoError),
      (m.fetchAndDecodeRsServer get).2 = .ok (.error err) →
      (m.Collect get).panic = none ∧
      (m.Collect get).sent =
        [ { desc := m.up.desc, valType := .GaugeValue, value := .ofInt 0,
            labelValues := [] },
          { desc := m.totalScrapes.desc, valType := .CounterValue,
            value := .ofInt ((m.totalScrapes.count + 1 : Nat) : Int), labelValues := [] },
          { desc := m.jsonParseFailures.desc, valType := .CounterValue,
            value := .ofInt ((m.Collect get).state.jsonParseFailures.count : Int),
            labelValues := [] } ] ∧
      (m.Collect get).sent.length = 3 ∧
      (m.Collect get).state.up.val = .ofInt 0) := by
  refine ⟨?_, ?_, ?_⟩
  · intro m get err h
    obtain ⟨h1, h2, h3⟩ := HBaseJvm_Collect_of_error m get err h
    exact ⟨h1, h2, by rw [h2]; rfl, h3⟩
  · intro m get err h
    obtain ⟨h1, h2, h3⟩ := MasterServer_Collect_of_error m get err h
    exact ⟨h1, h2, by rw [h2]; rfl, h3⟩
  · intro m get err h
    obtain ⟨h1, h2, h3⟩ := RsServer_Collect_of_error m get err h
    exact ⟨h1, h2, by rw [h2]; rfl, h3⟩

/-- C5 (witness).  The first cycle of a fresh JVM collector, on a response with
status 503: the three samples `hbase_jvm_up` = 0, `hbase_jvm_total_scrapes` = 1
and `hbase_jvm_json_parse_failures` = 0. -/
theorem C5_failed_cycle_sends_bookkeeping_only_witness :
    ((NewHBaseJvm (fun s => s.map Char.toLower)).Collect (.response 503 none)).sent.map
        (fun x => (x.desc.fqName, x.value))
      = [("hbase_jvm_up".toList, .ofInt 0), ("hbase_jvm_total_scrapes".toList, .ofInt 1),
         ("hbase_jvm_json_parse_failures".toList, .ofInt 0)] := by
  have h := (C5_failed_cycle_sends_bookkeeping_only.1
    (NewHBaseJvm (fun s => s.map Char.toLower)) (.response 503 none) (.httpStatus 503)
    (by decide)).2.1
  rw [h]
  decide

/-- C6.  For each fixed-schema collector, with the metric table built by its
constructor, and every cycle in which `fetchAndDecode` returns the record rec
without error, `Collect` ends without a panic and sends exactly
len(metrics) + 3 samples (7 + 3 for HBaseJvm, 4 + 3 for MasterServer, 15 + 3 for
RsServer): one sample per descriptor of the table, in table order, whose value
is the descriptor's `Value` function applied to rec, followed by up with value
1, total-scrapes and parse-failures. -/
theorem C6_successful_cycle_sends_table_then_bookkeeping (ToLower : GoString → GoString) :
    (∀ (m : HBaseJvm) (get : HttpGet (List (FixedBean hbaseJvmResponse))) (rec : hbaseJvmResponse),
      m.metrics = (NewHBaseJvm ToLower).metrics →
      (m.fetchAndDecodeHBaseJvm get).2 = .ok (.ok rec) →
      (m.Collect get).panic = none ∧
      (m.Collect get).sent =
        m.metrics.map (fun metric =>
          { desc := metric.Desc, valType := metric.Typ, value := metric.Value rec,
            labelValues := metric.Labels rec }) ++
        [ { desc := m.up.desc, valType := .GaugeValue, value := .ofInt 1,
            labelValues := [] },
          { desc := m.totalScrapes.desc, valType := .CounterValue,
            value := .ofInt ((m.totalScrapes.count + 1 : Nat) : Int), labelValues := [] },
          { desc := m.jsonParseFailures.desc, valType := .CounterValue,
            value := .ofInt (m.jsonParseFailures.count : Int), labelValues := [] } ] ∧
      m.metrics.length = 7 ∧ (m.Collect get).sent.length = 7 + 3) ∧
    (∀ (m : MasterServer) (get : HttpGet (List (FixedBean masterServerResponse))) (rec : masterServerResponse),
      m.metrics = (NewMasterServer ToLower).metrics →
      (m.fetchAndDecodeMasterServer get).2 = .ok (.ok rec) →
      (m.Collect get).panic = none ∧
      (m.Collect get).sent =
        m.metrics.map (fun metric =>
          { desc := metric.Desc, valType := metric.Typ, value := metric.Value rec,
            labelValues := metric.Labels rec }) ++
        [ { desc := m.up.desc, valType := .GaugeValue, value := .ofInt 1,
            labelValues := [] },
          { desc := m.totalScrapes.desc, valType := .CounterValue,
            value := .ofInt ((m.totalScrapes.count + 1 : Nat) : Int), labelValues := [] },
          { desc := m.jsonParseFailures.desc, valType := .CounterValue,
            value := .ofInt (m.jsonParseFailures.count : Int), labelValues := [] } ] ∧
      m.metrics.length = 4 ∧ (m.Collect get).sent.length = 4 + 3) ∧
    (∀ (m : RsServer) (get : HttpGet (List (FixedBean rsServerResponse))) (rec : rsServerResponse),
      m.metrics = (NewRsServer ToLower).metrics →
      (m.fetchAndDecodeRsServer get).2 = .ok (.ok rec) →
      (m.Collect get).panic = none ∧
      (m.Collect get).sent =
        m.metrics.map (fun metric =>
          { desc := metric.Desc, valType := metric.Typ, value := metric.Value rec,
            labelValues := metric.Labels rec }) ++
        [ { desc := m.up.desc, valType := .GaugeValue, value := .ofInt 1,
            labelValues := [] },
          { desc := m.totalScrapes.desc, valType := .CounterValue,
            value := .ofInt ((m.totalScrapes.count + 1 : Nat) : Int), labelValues := [] },
          { desc := m.jsonParseFailures.desc, valType := .CounterValue,
            value := .ofInt (m.jsonParseFailures.count : Int), labelValues := [] } ] ∧
      m.metrics.length = 15 ∧ (m.Collect get).sent.length = 15 + 3) := by
  refine ⟨?_, ?_, ?_⟩
  · intro m get rec hm h
    exact HBaseJvm_Collect_of_ok ToLower m get rec hm h
  · intro m get rec hm h
    exact MasterServer_Collect_of_ok ToLower m get rec hm h
  · intro m get rec hm h
    exact RsServer_Collect_of_ok ToLower m get rec hm h

/-- C6 (witness).  The first cycle of a fresh master collector on a bean with
average load 2.0 (bits 0x4000000000000000), 3 region servers, 1 dead region
server and `tag.isActiveMaster` = `true`: four metric samples in table order,
then up = 1, total-scrapes = 1, parse-failures = 0. -/
theorem C6_successful_cycle_sends_table_then_bookkeeping_witness :
    ((NewMasterServer (fun s => s.map Char.toLower)).Collect
        (.response 200 (some [.ok
          { Host := "h1".toList, Role := "Master".toList, NumRegionServers := 3,
            NumDeadRegionServers := 1, IsActiveMaster := "true".toList,
            AverageLoad := .ofBits 0x4000000000000000 }]))).sent.map
        (fun x => (x.desc.fqName, x.value, x.labelValues))
      = [("hbase_server_average_load".toList, .ofBits 0x4000000000000000,
            ["h1".toList, "master".toList]),
         ("hbase_server_num_regionservers".toList, .ofInt 3, ["h1".toList, "master".toList]),
         ("hbase_server_num_dead_regionserver".toList, .ofInt 1,
            ["h1".toList, "master".toList]),
         ("hbase_server_is_active_master".toList, .ofInt 1, ["h1".toList, "master".toList]),
         ("hbase_server_up".toList, .ofInt 1, []),
         ("hbase_server_total_scrapes".toList, .ofInt 1, []),
         ("hbase_server_json_parse_failures".toList, .ofInt 0, [])] := by
  have h := ((C6_successful_cycle_sends_table_then_bookkeeping
      (fun s => s.map Char.toLower)).2.1
    (NewMasterServer (fun s => s.map Char.toLower))
    (.response 200 (some [.ok
          { Host := "h1".toList, Role := "Master".toList, NumRegionServers := 3,
            NumDeadRegionServers := 1, IsActiveMaster := "true".toList,
            AverageLoad := .ofBits 0x4000000000000000 }]))
    { Host := "h1".toList, Role := "Master".toList, NumRegionServers := 3,
      NumDeadRegionServers := 1, IsActiveMaster := "true".toList,
      AverageLoad := .ofBits 0x4000000000000000 } rfl (by decide)).2.1
  rw [h]
  decide

/-- C10 (the code at the failing input).  On a response with status 200 whose
`beans` array is empty, the bean selector of every collector indexes element 0
all the same: `fetchAndDecode` does not return an error value, it panics with
an index out of range, and so does the cycle. -/
theorem C10_empty_beans_panics :
    (∀ (m : HBaseJvm),
      (m.fetchAndDecodeHBaseJvm (.response StatusOK (some []))).2 = .error (.indexOutOfRange 0 0) ∧
      (m.Collect (.response StatusOK (some []))).panic = some (.indexOutOfRange 0 0)) ∧
    (∀ (m : MasterServer),
      (m.fetchAndDecodeMasterServer (.response StatusOK (some []))).2 = .error (.indexOutOfRange 0 0) ∧
      (m.Collect (.response StatusOK (some []))).panic = some (.indexOutOfRange 0 0)) ∧
    (∀ (m : RsServer),
      (m.fetchAndDecodeRsServer (.response StatusOK (some []))).2 = .error (.indexOutOfRange 0 0) ∧
      (m.Collect (.response StatusOK (some []))).panic = some (.indexOutOfRange 0 0)) ∧
    (∀ (r : RsRegion),
      (r.fetchAndDecodeRsRegion (.response StatusOK (some []))).2
        = .error (.indexOutOfRange 0 0) ∧
      (r.Collect (.response StatusOK (some []))).panic = some (.indexOutOfRange 0 0)) := by
  refine ⟨?_, ?_, ?_, ?_⟩
  · intro m
    simp [HBaseJvm.Collect, HBaseJvm.fetchAndDecodeHBaseJvm, index]
  · intro m
    simp [MasterServer.Collect, MasterServer.fetchAndDecodeMasterServer, index]
  · intro m
    simp [RsServer.Collect, RsServer.fetchAndDecodeRsServer, index]
  · intro r
    simp [RsRegion.Collect, RsRegion.fetchAndDecodeRsRegion, index]

end Fixed

/-! ## Cycles of the collectors, one after another -/

section Bookkeeping

open collector prometheus

/-- C11 (the code at the failing input).  On a transport error the cycle of
the per-region collector sends nothing, so no up = 0 sample and no counter; on
a snapshot with one recognised entry (K = 1) it sends one sample, not four; and
`Describe` lists nine descriptors, none of them named `hbase_region_up`,
`hbase_region_total_scrapes` or `hbase_region_json_parse_failures`. -/
theorem C11_region_sends_no_bookkeeping :
    (NewRsRegion.Collect .transportError).sent = [] ∧
    (NewRsRegion.Collect .transportError).panic = none ∧
    (NewRsRegion.Collect (.response 200 (some [[
        ("tag.Hostname".toList, ⟨"h1".toList, .ofInt 0⟩),
        ("tag.Context".toList, ⟨"regionserver".toList, .ofInt 0⟩),
        ("Namespace_default_table_t1_region_r1_metric_storeCount".toList,
          ⟨"42".toList, .ofBits 0x4045000000000000⟩)]]))).sent.map
        (fun x => (x.desc.fqName, x.value))
      = [("hbase_store_count".toList, .ofBits 0x4045000000000000)] ∧
    NewRsRegion.Describe.length = 9 ∧
    "hbase_region_up".toList ∉ NewRsRegion.Describe.map (·.fqName) ∧
    "hbase_region_total_scrapes".toList ∉ NewRsRegion.Describe.map (·.fqName) ∧
    "hbase_region_json_parse_failures".toList ∉ NewRsRegion.Describe.map (·.fqName) := by
  decide

/-- C15 (the code at the failing input).  A snapshot whose one attribute besides
the host tag is `NamespaceX_Namespace_a_table_b_region_c_metric_storeCount`: no
key of it starts with `Namespace_`, yet the key passes the decoder's guard
`HasPrefix(k, "Namespace")`, is cut at the later `Namespace_`, and the fetch
returns successfully with one entry (a, b, c, storeCount) in the buffer, for
which the cycle sends a sample. -/
theorem C15_buffer_entry_without_qualifying_key :
    [("tag.Hostname".toList, (⟨"h1".toList, .ofInt 0⟩ : gjson.Result)),
     ("NamespaceX_Namespace_a_table_b_region_c_metric_storeCount".toList,
       ⟨"42".toList, .ofBits 0x4045000000000000⟩)].countP
      (fun kv => strings.HasPrefix kv.1 "Namespace_".toList) = 0 ∧
    (NewRsRegion.fetchAndDecodeRsRegion (.response 200 (some [[
        ("tag.Hostname".toList, ⟨"h1".toList, .ofInt 0⟩),
        ("NamespaceX_Namespace_a_table_b_region_c_metric_storeCount".toList,
          ⟨"42".toList, .ofBits 0x4045000000000000⟩)]]))).2
      = .ok (.ok ("h1".toList, [])) ∧
    (NewRsRegion.fetchAndDecodeRsRegion (.response 200 (some [[
        ("tag.Hostname".toList, ⟨"h1".toList, .ofInt 0⟩),
        ("NamespaceX_Namespace_a_table_b_region_c_metric_storeCount".toList,
          ⟨"42".toList, .ofBits 0x4045000000000000⟩)]]))).1.jmxs
      = [{ Namespace := "a".toList, Table := "b".toList, Region := "c".toList,
           Metric := "storeCount".toList, Value := .ofBits 0x4045000000000000 }] ∧
    (NewRsRegion.Collect (.response 200 (some [[
        ("tag.Hostname".toList, ⟨"h1".toList, .ofInt 0⟩),
        ("NamespaceX_Namespace_a_table_b_region_c_metric_storeCount".toList,
          ⟨"42".toList, .ofBits 0x4045000000000000⟩)]]))).sent.map
        (fun x => (x.value, x.labelValues))
      = [(.ofBits 0x4045000000000000,
          ["h1".toList, [], "a".toList, "b".toList, "c".toList])] := by
  decide

/-- C12 (the code at the failing input).  On a response with status 200 and an
empty `beans` array every fixed-schema collector panics at `Array()[0]` before
`up.Set(0)` is reached: up keeps the value the cycle found, and the deferred
function sends that value.  So for a JVM collector whose first cycle succeeds
and whose second cycle gets the empty array, the second, failed, cycle sends
`hbase_jvm_up` = 1. -/
theorem C12_failed_cycle_keeps_previous_up :
    (∀ (m : HBaseJvm),
      (m.Collect (.response StatusOK (some []))).panic = some (.indexOutOfRange 0 0) ∧
      (m.Collect (.response StatusOK (some []))).state.up = m.up ∧
      (m.Collect (.response StatusOK (some []))).sent
        = [m.up.toMetric, m.totalScrapes.Inc.toMetric, m.jsonParseFailures.toMetric]) ∧
    (∀ (m : MasterServer),
      (m.Collect (.response StatusOK (some []))).panic = some (.indexOutOfRange 0 0) ∧
      (m.Collect (.response StatusOK (some []))).state.up = m.up ∧
      (m.Collect (.response StatusOK (some []))).sent
        = [m.up.toMetric, m.totalScrapes.Inc.toMetric, m.jsonParseFailures.toMetric]) ∧
    (∀ (m : RsServer),
      (m.Collect (.response StatusOK (some []))).panic = some (.indexOutOfRange 0 0) ∧
      (m.Collect (.response StatusOK (some []))).state.up = m.up ∧
      (m.Collect (.response StatusOK (some []))).sent
        = [m.up.toMetric, m.totalScrapes.Inc.toMetric, m.jsonParseFailures.toMetric]) ∧
    (runCycles HBaseJvm.Collect (NewHBaseJvm (fun s => s.map Char.toLower))
        [.response 200 (some [.ok
          { Host := "h1".toList, Role := "RegionServer".toList,
            SubName := "JvmMetrics".toList, MemNonHeapUsedM := .ofBits 0,
            MemHeapUsedM := .ofBits 0, MemHeapMaxM := .ofBits 0, MemMaxM := .ofBits 0,
            GcTimeMillis := 12, GcCount := 3, ThreadsBlocked := 0 }])]).up.val = .ofInt 1 ∧
    ((runCycles HBaseJvm.Collect (NewHBaseJvm (fun s => s.map Char.toLower))
        [.response 200 (some [.ok
          { Host := "h1".toList, Role := "RegionServer".toList,
            SubName := "JvmMetrics".toList, MemNonHeapUsedM := .ofBits 0,
            MemHeapUsedM := .ofBits 0, MemHeapMaxM := .ofBits 0, MemMaxM := .ofBits 0,
            GcTimeMillis := 12, GcCount := 3, ThreadsBlocked := 0 }])]).Collect (.response 200 (some []))).sent.map
        (fun x => (x.desc.fqName, x.value))
      = [("hbase_jvm_up".toList, .ofInt 1), ("hbase_jvm_total_scrapes".toList, .ofInt 2),
         ("hbase_jvm_json_parse_failures".toList, .ofInt 0)] ∧
    ((runCycles HBaseJvm.Collect (NewHBaseJvm (fun s => s.map Char.toLower))
        [.response 200 (some [.ok
          { Host := "h1".toList, Role := "RegionServer".toList,
            SubName := "JvmMetrics".toList, MemNonHeapUsedM := .ofBits 0,
            MemHeapUsedM := .ofBits 0, MemHeapMaxM := .ofBits 0, MemMaxM := .ofBits 0,
            GcTimeMillis := 12, GcCount := 3, ThreadsBlocked := 0 }])]).Collect (.response 200 (some []))).panic
      = some (.indexOutOfRange 0 0) := by
  refine ⟨?_, ?_, ?_, by decide, by decide, by decide⟩
  · intro m
    simp [HBaseJvm.Collect, HBaseJvm.fetchAndDecodeHBaseJvm, index]
  · intro m
    simp [MasterServer.Collect, MasterServer.fetchAndDecodeMasterServer, index]
  · intro m
    simp [RsServer.Collect, RsServer.fetchAndDecodeRsServer, index]

/-- C13.  For each fixed-schema collector: every cycle, whatever its outcome,
increases total-scrapes by exactly 1 and does not decrease parse-failures;
hence after n cycles from the construction of the collector total-scrapes is n
and parse-failures is at most n, and the cycle that follows n cycles, the
(n + 1)-th, sends the total-scrapes sample with value n + 1. -/
theorem C13_counters_monotone (ToLower : GoString → GoString) :
    ((∀ (m : HBaseJvm) (get : HttpGet (List (FixedBean hbaseJvmResponse))),
        (m.Collect get).state.totalScrapes.count = m.totalScrapes.count + 1 ∧
        m.jsonParseFailures.count ≤ (m.Collect get).state.jsonParseFailures.count) ∧
     (∀ (gets : List (HttpGet (List (FixedBean hbaseJvmResponse)))),
        (runCycles HBaseJvm.Collect (NewHBaseJvm ToLower) gets).totalScrapes.count = gets.length ∧
        (runCycles HBaseJvm.Collect (NewHBaseJvm ToLower) gets).jsonParseFailures.count
          ≤ gets.length) ∧
     (∀ (gets : List (HttpGet (List (FixedBean hbaseJvmResponse))))
        (get : HttpGet (List (FixedBean hbaseJvmResponse))),
        ({ desc := (NewHBaseJvm ToLower).totalScrapes.desc, valType := .CounterValue,
            value := .ofInt ((gets.length + 1 : Nat) : Int), labelValues := [] } : Metric)
          ∈ ((runCycles HBaseJvm.Collect (NewHBaseJvm ToLower) gets).Collect get).sent)) ∧
    ((∀ (m : MasterServer) (get : HttpGet (List (FixedBean masterServerResponse))),
        (m.Collect get).state.totalScrapes.count = m.totalScrapes.count + 1 ∧
        m.jsonParseFailures.count ≤ (m.Collect get).state.jsonParseFailures.count) ∧
     (∀ (gets : List (HttpGet (List (FixedBean masterServerResponse)))),
        (runCycles MasterServer.Collect (NewMasterServer ToLower) gets).totalScrapes.count = gets.length ∧
        (runCycles MasterServer.Collect (NewMasterServer ToLower) gets).jsonParseFailures.count
          ≤ gets.length) ∧
     (∀ (gets : List (HttpGet (List (FixedBean masterServerResponse))))
        (get : HttpGet (List (FixedBean masterServerResponse))),
        ({ desc := (NewMasterServer ToLower).totalScrapes.desc, valType := .CounterValue,
            value := .ofInt ((gets.length + 1 : Nat) : Int), labelValues := [] } : Metric)
          ∈ ((runCycles MasterServer.Collect (NewMasterServer ToLower) gets).Collect get).sent)) ∧
    ((∀ (m : RsServer) (get : HttpGet (List (FixedBean rsServerResponse))),
        (m.Collect get).state.totalScrapes.count = m.totalScrapes.count + 1 ∧
        m.jsonParseFailures.count ≤ (m.Collect get).state.jsonParseFailures.count) ∧
     (∀ (gets : List (HttpGet (List (FixedBean rsServerResponse)))),
        (runCycles RsServer.Collect (NewRsServer ToLower) gets).totalScrapes.count = gets.length ∧
        (runCycles RsServer.Collect (NewRsServer ToLower) gets).jsonParseFailures.count
          ≤ gets.length) ∧
     (∀ (gets : List (HttpGet (List (FixedBean rsServerResponse))))
        (get : HttpGet (List (FixedBean rsServerResponse))),
        ({ desc := (NewRsServer ToLower).totalScrapes.desc, valType := .CounterValue,
            value := .ofInt ((gets.length + 1 : Nat) : Int), labelValues := [] } : Metric)
          ∈ ((runCycles RsServer.Collect (NewRsServer ToLower) gets).Collect get).sent)) := by
  refine ⟨?_, ?_, ?_⟩
  · refine ⟨?_, ?_, ?_⟩
    · intro m get
      obtain ⟨_, _, s3, _, s5, _⟩ := HBaseJvm_Collect_state m get
      exact ⟨by rw [s3]; rfl, s5⟩
    · intro gets
      obtain ⟨_, _, r3, _, r5, _⟩ := HBaseJvm_reachable ToLower gets
      exact ⟨by rw [r3], r5⟩
    · intro gets get
      obtain ⟨_, _, r3, _⟩ := HBaseJvm_reachable ToLower gets
      obtain ⟨_, _, s3, _, _, _, _, s8⟩ :=
        HBaseJvm_Collect_state (runCycles HBaseJvm.Collect (NewHBaseJvm ToLower) gets) get
      rw [s3, r3] at s8
      exact s8
  · refine ⟨?_, ?_, ?_⟩
    · intro m get
      obtain ⟨_, _, s3, _, s5, _⟩ := MasterServer_Collect_state m get
      exact ⟨by rw [s3]; rfl, s5⟩
    · intro gets
      obtain ⟨_, _, r3, _, r5, _⟩ := MasterServer_reachable ToLower gets
      exact ⟨by rw [r3], r5⟩
    · intro gets get
      obtain ⟨_, _, r3, _⟩ := MasterServer_reachable ToLower gets
      obtain ⟨_, _, s3, _, _, _, _, s8⟩ :=
        MasterServer_Collect_state (runCycles MasterServer.Collect (NewMasterServer ToLower) gets) get
      rw [s3, r3] at s8
      exact s8
  · refine ⟨?_, ?_, ?_⟩
    · intro m get
      obtain ⟨_, _, s3, _, s5, _⟩ := RsServer_Collect_state m get
      exact ⟨by rw [s3]; rfl, s5⟩
    · intro gets
      obtain ⟨_, _, r3, _, r5, _⟩ := RsServer_reachable ToLower gets
      exact ⟨by rw [r3], r5⟩
    · intro gets get
      obtain ⟨_, _, r3, _⟩ := RsServer_reachable ToLower gets
      obtain ⟨_, _, s3, _, _, _, _, s8⟩ :=
        RsServer_Collect_state (runCycles RsServer.Collect (NewRsServer ToLower) gets) get
      rw [s3, r3] at s8
      exact s8

/-- C13 (witness).  A master collector after the three cycles transport error,
status 500, unmarshal error: total-scrapes is 3 and parse-failures is 1. -/
theorem C13_counters_monotone_witness :
    (runCycles MasterServer.Collect (NewMasterServer (fun s => s.map Char.toLower))
      [.transportError, .response 500 none,
       .response 200 (some [.error .unmarshal])]).totalScrapes.count = 3 ∧
    (runCycles MasterServer.Collect (NewMasterServer (fun s => s.map Char.toLower))
      [.transportError, .response 500 none,
       .response 200 (some [.error .unmarshal])]).jsonParseFailures.count = 1 :=
  ⟨((C13_counters_monotone (fun s => s.map Char.toLower)).2.1.2.1
      [.transportError, .response 500 none, .response 200 (some [.error .unmarshal])]).1,
   by decide⟩

/-- C14 (the code at the failing input).  On a response with status 200 whose
body cannot be read to the end (`ioutil.ReadAll` returns an error: the
connection failed, nothing was parsed), every fixed-schema collector returns
the read error and increases parse-failures by 1; for a fresh master collector
the sample `hbase_server_json_parse_failures` goes from 0 to 1. -/
theorem C14_read_error_counts_as_parse_failure :
    (∀ (m : HBaseJvm),
      (m.fetchAndDecodeHBaseJvm (.response StatusOK none)).2 = .ok (.error .read) ∧
      (m.Collect (.response StatusOK none)).state.jsonParseFailures.count
        = m.jsonParseFailures.count + 1 ∧
      (m.Collect (.response StatusOK none)).panic = none) ∧
    (∀ (m : MasterServer),
      (m.fetchAndDecodeMasterServer (.response StatusOK none)).2 = .ok (.error .read) ∧
      (m.Collect (.response StatusOK none)).state.jsonParseFailures.count
        = m.jsonParseFailures.count + 1 ∧
      (m.Collect (.response StatusOK none)).panic = none) ∧
    (∀ (m : RsServer),
      (m.fetchAndDecodeRsServer (.response StatusOK none)).2 = .ok (.error .read) ∧
      (m.Collect (.response StatusOK none)).state.jsonParseFailures.count
        = m.jsonParseFailures.count + 1 ∧
      (m.Collect (.response StatusOK none)).panic = none) ∧
    (NewMasterServer (fun s => s.map Char.toLower)).jsonParseFailures.count = 0 ∧
    ((NewMasterServer (fun s => s.map Char.toLower)).Collect (.response 200 none)).sent.map
        (fun x => (x.desc.fqName, x.value))
      = [("hbase_server_up".toList, .ofInt 0), ("hbase_server_total_scrapes".toList, .ofInt 1),
         ("hbase_server_json_parse_failures".toList, .ofInt 1)] := by
  refine ⟨?_, ?_, ?_, by decide, by decide⟩
  · intro m
    simp [HBaseJvm.Collect, HBaseJvm.fetchAndDecodeHBaseJvm, Counter.Inc]
  · intro m
    simp [MasterServer.Collect, MasterServer.fetchAndDecodeMasterServer, Counter.Inc]
  · intro m
    simp [RsServer.Collect, RsServer.fetchAndDecodeRsServer, Counter.Inc]

/-- C16.  The table of the master collector holds exactly one descriptor named
`hbase_server_is_active_master`, and its value for a decoded record is 1 when
the `tag.isActiveMaster` attribute is the string `true` and 0 for every other
string; in every successful cycle of a master collector, after any number of
cycles from its construction, the one sample of that name carries this value,
which is never anything but 0 or 1. -/
theorem C16_is_active_master_is_zero_or_one (ToLower : GoString → GoString) :
    (∀ rec : masterServerResponse,
      ((NewMasterServer ToLower).metrics.filter (fun metric =>
          decide (metric.Desc.fqName = "hbase_server_is_active_master".toList))).map
        (fun metric => metric.Value rec)
      = [if rec.IsActiveMaster = "true".toList then .ofInt 1 else .ofInt 0]) ∧
    (∀ (gets : List (HttpGet (List (FixedBean masterServerResponse))))
        (get : HttpGet (List (FixedBean masterServerResponse))) (rec : masterServerResponse),
      ((runCycles MasterServer.Collect (NewMasterServer ToLower)
          gets).fetchAndDecodeMasterServer get).2 = .ok (.ok rec) →
      (((runCycles MasterServer.Collect (NewMasterServer ToLower) gets).Collect
          get).sent.filter (fun x =>
            decide (x.desc.fqName = "hbase_server_is_active_master".toList))).map
        (fun x => x.value)
      = [if rec.IsActiveMaster = "true".toList then .ofInt 1 else .ofInt 0]) ∧
    (∀ rec : masterServerResponse,
      (rec.IsActiveMaster = "true".toList →
        (if rec.IsActiveMaster = "true".toList then Float64.ofInt 1 else Float64.ofInt 0)
          = .ofInt 1) ∧
      (rec.IsActiveMaster ≠ "true".toList →
        (if rec.IsActiveMaster = "true".toList then Float64.ofInt 1 else Float64.ofInt 0)
          = .ofInt 0) ∧
      ((if rec.IsActiveMaster = "true".toList then Float64.ofInt 1 else Float64.ofInt 0)
          = .ofInt 0 ∨
       (if rec.IsActiveMaster = "true".toList then Float64.ofInt 1 else Float64.ofInt 0)
          = .ofInt 1)) := by
  refine ⟨fun rec => rfl, ?_, ?_⟩
  · intro gets get rec h
    obtain ⟨r1, r2, r3, r4, _⟩ := MasterServer_reachable ToLower gets
    obtain ⟨_, hs, _⟩ := MasterServer_Collect_of_ok ToLower _ get rec r1 h
    rw [hs, r1, r2, r3, r4]
    rfl
  · intro rec
    refine ⟨fun h => by rw [if_pos h], fun h => by rw [if_neg h], ?_⟩
    by_cases h : rec.IsActiveMaster = "true".toList
    · exact Or.inr (by rw [if_pos h])
    · exact Or.inl (by rw [if_neg h])

/-- C16 (witness).  The value of the `is_active_master` descriptor for the
attribute strings `true`, the empty string, `false` and `True`: 1, 0, 0, 0. -/
theorem C16_is_active_master_is_zero_or_one_witness :
    (["true".toList, "".toList, "false".toList, "True".toList].map fun s =>
      ((NewMasterServer (fun s => s.map Char.toLower)).metrics.filter (fun metric =>
          decide (metric.Desc.fqName = "hbase_server_is_active_master".toList))).map
        (fun metric => metric.Value
          { Host := "h1".toList, Role := "Master".toList, NumRegionServers := 3,
            NumDeadRegionServers := 0, IsActiveMaster := s, AverageLoad := .ofBits 0 }))
      = [[.ofInt 1], [.ofInt 0], [.ofInt 0], [.ofInt 0]] := by
  have h := (C16_is_active_master_is_zero_or_one (fun s => s.map Char.toLower)).1
  simp only [List.map_cons, List.map_nil, h]
  decide

end Bookkeeping

/-! ## Leftmost decomposition -/

/-- C18.  Leftmost-split minimality: whenever `SplitHBaseRegionStr` succeeds on
a key with result [ns, table, region, metric], ns does not contain `_table_`,
table does not contain `_region_` and region does not contain `_metric_`; the
key is some text pre, then the canonical key of the four parts, where pre ends
at the first occurrence of `Namespace_` and is discarded: the canonical key
alone gives the same result.  Consequently the key joined from ns = `x_table`,
table = `t1`, region = `r1`, metric = `m1` is split into other parts than it
was joined from. -/
theorem C18_leftmost_split :
    (∀ (data a b c d : GoString), utils.SplitHBaseRegionStr data = .ok [a, b, c, d] →
      strings.Contains a "_table_".toList = false ∧
      strings.Contains b "_region_".toList = false ∧
      strings.Contains c "_metric_".toList = false ∧
      ∃ pre, data = pre ++ compositeKey a b c d ∧
        strings.Index data "Namespace_".toList = some pre.length ∧
        strings.Contains pre "Namespace_".toList = false ∧
        utils.SplitHBaseRegionStr (compositeKey a b c d) = .ok [a, b, c, d]) ∧
    utils.SplitHBaseRegionStr
        (compositeKey "x_table".toList "t1".toList "r1".toList "m1".toList)
      = .ok ["x".toList, "table_t1".toList, "r1".toList, "m1".toList] := by
  refine ⟨?_, by decide⟩
  intro data a b c d h
  obtain ⟨m0, m1, m2, m3, h0, h1, h2, h3, ha, hb, hc, hd⟩ := SplitHBaseRegionStr_ok_inv h
  have l0 : ("Namespace_".toList : GoString).length = 10 := by decide
  have l1 : ("_table_".toList : GoString).length = 7 := by decide
  have l2 : ("_region_".toList : GoString).length = 8 := by decide
  have l3 : ("_metric_".toList : GoString).length = 8 := by decide
  have s0 := Index_some_split h0
  have s1 := Index_some_split h1
  have s2 := Index_some_split h2
  have s3 := Index_some_split h3
  rw [l0] at s0
  rw [l1, ← ha] at s1
  rw [l2, ← hb] at s2
  rw [l3, ← hc, ← hd] at s3
  have hk : compositeKey a b c d = "Namespace_".toList ++ data.drop (m0 + 10) := by
    rw [s1, s2, s3]
    simp [compositeKey, List.append_assoc]
  have hlen : (data.take m0).length = m0 := by
    have := congrArg List.length s0
    simp only [List.length_append, List.length_take, List.length_drop, l0] at this
    rw [List.length_take]
    omega
  refine ⟨ha ▸ Contains_take_Index_false (by decide) h1,
    hb ▸ Contains_take_Index_false (by decide) h2,
    hc ▸ Contains_take_Index_false (by decide) h3, data.take m0, ?_, ?_, ?_, ?_⟩
  · rw [hk, ← List.append_assoc]; exact s0
  · rw [hlen]; exact h0
  · exact Contains_take_Index_false (by decide) h0
  · have i0 : strings.Index (compositeKey a b c d) "Namespace_".toList = some 0 :=
      Index_of_HasPrefix (by simp [strings.HasPrefix, compositeKey, List.append_assoc])
    have hd0 : (compositeKey a b c d).drop (0 + 10) = data.drop (m0 + 10) := by
      rw [hk]
      have : (0 + 10) = ("Namespace_".toList : GoString).length := by decide
      rw [this, List.drop_left]
    rw [SplitHBaseRegionStr_eq, i0]
    simp only [hd0, h1, h2, h3, ← ha, ← hb, ← hc, ← hd]

/-- C18 (witness).  The key
`xxNamespace_n_table_t_region_region_r_metric_m_metric_e`: the text `xx` is
discarded, the table ends at the first `_region_` and the metric part keeps the
later `_metric_`. -/
theorem C18_leftmost_split_witness :
    utils.SplitHBaseRegionStr
        "xxNamespace_n_table_t_region_region_r_metric_m_metric_e".toList
      = .ok ["n".toList, "t".toList, "region_r".toList, "m_metric_e".toList] ∧
    strings.Contains "n".toList "_table_".toList = false ∧
    strings.Contains "t".toList "_region_".toList = false ∧
    strings.Contains "region_r".toList "_metric_".toList = false ∧
    ∃ pre, "xxNamespace_n_table_t_region_region_r_metric_m_metric_e".toList
          = pre ++ compositeKey "n".toList "t".toList "region_r".toList "m_metric_e".toList ∧
        strings.Index "xxNamespace_n_table_t_region_region_r_metric_m_metric_e".toList
          "Namespace_".toList = some pre.length ∧
        strings.Contains pre "Namespace_".toList = false ∧
        utils.SplitHBaseRegionStr
            (compositeKey "n".toList "t".toList "region_r".toList "m_metric_e".toList)
          = .ok ["n".toList, "t".toList, "region_r".toList, "m_metric_e".toList] :=
  ⟨by decide,
   C18_leftmost_split.1 "xxNamespace_n_table_t_region_region_r_metric_m_metric_e".toList
    "n".toList "t".toList "region_r".toList "m_metric_e".toList (by decide)⟩

end HBaseExporter
